import Mathlib

/-!
# DiscordTextGenerator.jsx: the formatting engine over the editable DOM

The component keeps its whole state in the child nodes of one `contentEditable`
element.  `applyFormatting` replaces the selected DOM range by a `span` that
carries the escape-coded text (`data-ansi`), a style map (`data-styles`) and
CSS; `generateANSIText` walks the element's child nodes; `resetFormatting`
replaces the formatted spans by text nodes and normalizes the element.

Strings are sequences of code units (`List Char`).  The DOM calls the source
makes (`Range.toString`, `Range.deleteContents`, `Range.insertNode`,
`Node.textContent`, `Node.normalize`, `querySelectorAll`, `replaceChild`) are
written out following the DOM standard for trees of text nodes and spans.
-/

namespace DiscordTextGenerator

/-! ## COLOR_MAPPINGS (lines 13-35) -/

/-- One entry of a `COLOR_MAPPINGS` list; the entries of `styles` have no `color`. -/
structure MappingEntry where
  code : Nat
  name : String
  color : Option String
  ansiCode : Nat
deriving DecidableEq, Repr

/-- The list `COLOR_MAPPINGS.foreground`. -/
def COLOR_MAPPINGS.foreground : List MappingEntry :=
  [ ⟨31, "Red", some "#dc322f", 31⟩,
    ⟨32, "Green", some "#859900", 32⟩,
    ⟨33, "Gold", some "#b58900", 33⟩,
    ⟨34, "Blue", some "#268bd2", 34⟩,
    ⟨35, "Pink", some "#d33682", 35⟩,
    ⟨36, "Teal", some "#2aa198", 36⟩,
    ⟨37, "White", some "#ffffff", 37⟩ ]

/-- The list `COLOR_MAPPINGS.background`. -/
def COLOR_MAPPINGS.background : List MappingEntry :=
  [ ⟨40, "Dark", some "#002b36", 40⟩,
    ⟨41, "Red", some "#cb4b16", 41⟩,
    ⟨42, "Gray", some "#586e75", 42⟩,
    ⟨43, "Light Gray", some "#657b83", 43⟩,
    ⟨44, "Blue Gray", some "#839496", 44⟩,
    ⟨45, "Blurple", some "#6c71c4", 45⟩ ]

/-- The list `COLOR_MAPPINGS.styles`. -/
def COLOR_MAPPINGS.styles : List MappingEntry :=
  [ ⟨1, "Bold", none, 1⟩,
    ⟨4, "Underline", none, 4⟩ ]

/-- The own properties of the object: `COLOR_MAPPINGS[type]` for a key the
object literal defines, `none` (undefined) for a key it does not define. -/
def COLOR_MAPPINGS (type : String) : Option (List MappingEntry) :=
  if type = "foreground" then some COLOR_MAPPINGS.foreground
  else if type = "background" then some COLOR_MAPPINGS.background
  else if type = "styles" then some COLOR_MAPPINGS.styles
  else none

/-- Keys that `COLOR_MAPPINGS[type]` resolves through `Object.prototype`: the
value is not nullish and has no `find`, so line 53 throws a `TypeError`. -/
def objectPrototypeKeys : List String :=
  [ "constructor", "hasOwnProperty", "isPrototypeOf", "propertyIsEnumerable",
    "toLocaleString", "toString", "valueOf", "__proto__", "__defineGetter__",
    "__defineSetter__", "__lookupGetter__", "__lookupSetter__" ]

/-- The callback `item => item.code === code` with `Array.prototype.find`. -/
def findByCode (items : List MappingEntry) (code : Nat) : Option MappingEntry :=
  items.find? (fun item => item.code == code)

/-- Line 53: `COLOR_MAPPINGS[type]?.find(...) || COLOR_MAPPINGS.styles.find(...)`.
An entry object is truthy, so the right operand is used exactly when the left
one is undefined. -/
def ansiData (type : String) (code : Nat) : Option MappingEntry :=
  match (COLOR_MAPPINGS type).bind (fun items => findByCode items code) with
  | some item => some item
  | none => findByCode COLOR_MAPPINGS.styles code

/-! ## The DOM under the editable element -/

/-- The object stored as JSON in `data-styles` (lines 65-84): one slot per key
the source writes.  `JSON.parse (JSON.stringify o) = o` for such objects. -/
structure StyleMap where
  foreground : Option Nat
  background : Option Nat
  bold : Bool
  underline : Bool
deriving DecidableEq, Repr

/-- The empty object `\x7b\x7d`. -/
def StyleMap.empty : StyleMap := ⟨none, none, false, false⟩

/-- The inline CSS properties the source assigns (lines 64-83). -/
structure CSSStyle where
  color : Option String
  backgroundColor : Option String
  fontWeight : Option String
  textDecoration : Option String
deriving DecidableEq, Repr

/-- The empty object `style = \x7b\x7d` of line 64. -/
def CSSStyle.empty : CSSStyle := ⟨none, none, none, none⟩

/-- A node below the editable element: a text node, or a `span` element with
its `data-ansi` attribute, its `data-styles` attribute, its inline style and
its child nodes. -/
inductive Node where
  | text (data : List Char)
  | span (ansi : Option (List Char)) (styles : Option StyleMap) (style : CSSStyle)
      (childNodes : List Node)
deriving Repr

mutual
/-- The getter `node.textContent`: the data of the text nodes below, in tree order. -/
def Node.textContent : Node → List Char
  | .text data => data
  | .span _ _ _ childNodes => textContentList childNodes
/-- The `textContent` of a list of sibling nodes, concatenated. -/
def textContentList : List Node → List Char
  | [] => []
  | node :: rest => node.textContent ++ textContentList rest
end

/-- The boundary point of a DOM range: the container node, named by the child
indices leading to it from the editable element (`[]` is the element itself),
and an offset into the container's data (text node) or child nodes (element). -/
structure BoundaryPoint where
  container : List Nat
  offset : Nat
deriving DecidableEq, Repr

/-- A DOM `Range`, as `window.getSelection().getRangeAt(0)` returns it. -/
structure Range where
  startContainer : List Nat
  startOffset : Nat
  endContainer : List Nat
  endOffset : Nat
deriving DecidableEq, Repr

/-- The text of `node` that lies after the boundary point `(p, off)` inside it. -/
def Node.textAfter : List Nat → Nat → Node → List Char
  | [], off, .text data => data.drop off
  | [], off, .span _ _ _ cs => textContentList (cs.drop off)
  | _ :: _, _, .text _ => []
  | i :: p, off, .span _ _ _ cs =>
    (match cs[i]? with
      | some c => Node.textAfter p off c
      | none => []) ++ textContentList (cs.drop (i + 1))

/-- The text of `node` that lies before the boundary point `(p, off)` inside it. -/
def Node.textBefore : List Nat → Nat → Node → List Char
  | [], off, .text data => data.take off
  | [], off, .span _ _ _ cs => textContentList (cs.take off)
  | _ :: _, _, .text _ => []
  | i :: p, off, .span _ _ _ cs =>
    textContentList (cs.take i) ++
      (match cs[i]? with
        | some c => Node.textBefore p off c
        | none => [])

/-- What `deleteContents` leaves of a node that holds the range's start and not
its end: the data after the start offset is deleted from the start text node,
the nodes after the start point are removed; the ancestors of the start node
stay. -/
def Node.deleteAfter : List Nat → Nat → Node → Node
  | [], off, .text data => .text (data.take off)
  | [], off, .span a st css cs => .span a st css (cs.take off)
  | _ :: _, _, .text data => .text data
  | i :: p, off, .span a st css cs =>
    .span a st css
      (cs.take i ++
        (match cs[i]? with
          | some c => [Node.deleteAfter p off c]
          | none => []))

/-- What `deleteContents` leaves of a node that holds the range's end and not
its start: the data before the end offset is deleted from the end text node,
the nodes before the end point are removed; the ancestors of the end node stay. -/
def Node.deleteBefore : List Nat → Nat → Node → Node
  | [], off, .text data => .text (data.drop off)
  | [], off, .span a st css cs => .span a st css (cs.drop off)
  | _ :: _, _, .text data => .text data
  | i :: p, off, .span a st css cs =>
    .span a st css
      ((match cs[i]? with
          | some c => [Node.deleteBefore p off c]
          | none => []) ++ cs.drop (i + 1))

/-- The text a range selects among the child nodes `cs` of a common ancestor:
start `(p, so)`, end `(q, eo)`, both relative to that ancestor. -/
def rangeText : List Nat → Nat → List Nat → Nat → List Node → List Char
  | [], so, [], eo, cs => textContentList ((cs.take eo).drop so)
  | [], so, j :: q, eo, cs =>
    textContentList ((cs.take j).drop so) ++
      (match cs[j]? with
        | some c => Node.textBefore q eo c
        | none => [])
  | i :: p, so, [], eo, cs =>
    (match cs[i]? with
      | some c => Node.textAfter p so c
      | none => []) ++ textContentList ((cs.take eo).drop (i + 1))
  | i :: p, so, j :: q, eo, cs =>
    if i = j then
      match cs[i]? with
      | some (.text data) => (data.take eo).drop so
      | some (.span _ _ _ cs') => rangeText p so q eo cs'
      | none => []
    else
      (match cs[i]? with
        | some c => Node.textAfter p so c
        | none => []) ++ textContentList ((cs.take j).drop (i + 1)) ++
      (match cs[j]? with
        | some c => Node.textBefore q eo c
        | none => [])

/-- The stringifier `range.toString()`: the selected data of the start text
node, the data of the text nodes contained in the range, the selected data of
the end text node. -/
def Range.toString (r : Range) (element : List Node) : List Char :=
  rangeText r.startContainer r.startOffset r.endContainer r.endOffset element

/-- The method `range.deleteContents()` among the child nodes `cs` of a common
ancestor of both boundary points.  Returns the new child nodes and the
boundary point the range collapses to, relative to that ancestor.

* start and end in the same text node: its data between the offsets is deleted
  and the range collapses to the start offset;
* otherwise the nodes contained in the range are removed, the start and end
  text nodes are truncated, partially contained elements stay; when the start
  node is an inclusive ancestor of the end node the range collapses to the
  start point, else to the point just after the child that holds the start. -/
def deleteContentsIn : List Nat → Nat → List Nat → Nat → List Node →
    List Node × BoundaryPoint
  | [], so, [], eo, cs => (cs.take so ++ cs.drop eo, ⟨[], so⟩)
  | [], so, j :: q, eo, cs =>
    (cs.take so ++
      (match cs[j]? with
        | some c => [Node.deleteBefore q eo c]
        | none => []) ++ cs.drop (j + 1), ⟨[], so⟩)
  | i :: p, so, [], eo, cs =>
    (cs.take i ++
      (match cs[i]? with
        | some c => [Node.deleteAfter p so c]
        | none => []) ++ cs.drop eo, ⟨[], i + 1⟩)
  | i :: p, so, j :: q, eo, cs =>
    if i = j then
      match cs[i]? with
      | some (.text data) =>
        (cs.take i ++ [Node.text (data.take so ++ data.drop eo)] ++ cs.drop (i + 1),
          ⟨[i], so⟩)
      | some (.span a st css cs') =>
        let inner := deleteContentsIn p so q eo cs'
        (cs.take i ++ [Node.span a st css inner.1] ++ cs.drop (i + 1),
          ⟨i :: inner.2.container, inner.2.offset⟩)
      | none => (cs, ⟨[], cs.length⟩)
    else
      (cs.take i ++
        (match cs[i]? with
          | some c => [Node.deleteAfter p so c]
          | none => []) ++
        (match cs[j]? with
          | some c => [Node.deleteBefore q eo c]
          | none => []) ++ cs.drop (j + 1), ⟨[], i + 1⟩)

/-- The method `range.deleteContents()` on the editable element's child nodes. -/
def Range.deleteContents (r : Range) (element : List Node) : List Node × BoundaryPoint :=
  deleteContentsIn r.startContainer r.startOffset r.endContainer r.endOffset element

/-- The method `range.insertNode(node)` for a range that starts at `(p, off)`:
in an element the node is inserted before the child at the offset (appended
when there is none); a text node is split at the offset and the node is
inserted between the two halves. -/
def insertNodeAt (node : Node) : List Nat → Nat → List Node → List Node
  | [], off, cs => cs.take off ++ [node] ++ cs.drop off
  | i :: p, off, cs =>
    match cs[i]? with
    | some (.text data) =>
      cs.take i ++ [Node.text (data.take off), node, Node.text (data.drop off)] ++
        cs.drop (i + 1)
    | some (.span a st css cs') =>
      cs.take i ++ [Node.span a st css (insertNodeAt node p off cs')] ++ cs.drop (i + 1)
    | none => cs

/-- The method `range.insertNode(node)` at a collapsed range. -/
def BoundaryPoint.insertNode (bp : BoundaryPoint) (node : Node) (element : List Node) :
    List Node :=
  insertNodeAt node bp.container bp.offset element

/-! ## applyFormatting (lines 46-95) -/

/-- The character U+001B. -/
def ESC : Char := Char.ofNat 27

/-- The template literal of line 56: ESC, `[`, the decimal digits of the code, `m`. -/
def ansiPrefixOf (ansiCode : Nat) : List Char :=
  ESC :: '[' :: (Nat.toDigits 10 ansiCode ++ ['m'])

/-- The constant `suffix` of line 57: ESC, `[`, `0`, `m`. -/
def suffix : List Char := [ESC, '[', '0', 'm']

/-- The getter `span.dataset.styles`, parsed. -/
def Node.styles : Node → Option StyleMap
  | .text _ => none
  | .span _ st _ _ => st

/-- Lines 60-84: the span that `applyFormatting` builds for the selected text.
`existingStyles` is read from the `data-styles` of the span created on line
60, which has none at that point. -/
def buildSpan (type : String) (code : Nat) (item : MappingEntry)
    (selectedText : List Char) : Node :=
  let formattedText := ansiPrefixOf item.ansiCode ++ selectedText ++ suffix
  let span := Node.span (some formattedText) none CSSStyle.empty [Node.text selectedText]
  let existingStyles : StyleMap :=
    match span.styles with
    | some parsed => parsed
    | none => StyleMap.empty
  if type = "foreground" then
    Node.span (some formattedText)
      (some ⟨some code, existingStyles.background, existingStyles.bold,
        existingStyles.underline⟩)
      ⟨(findByCode COLOR_MAPPINGS.foreground code).bind MappingEntry.color, none, none, none⟩
      [Node.text selectedText]
  else if type = "background" then
    Node.span (some formattedText)
      (some ⟨existingStyles.foreground, some code, existingStyles.bold,
        existingStyles.underline⟩)
      ⟨none, (findByCode COLOR_MAPPINGS.background code).bind MappingEntry.color, none, none⟩
      [Node.text selectedText]
  else if type = "styles" then
    if item.name = "Bold" then
      Node.span (some formattedText)
        (some ⟨existingStyles.foreground, existingStyles.background, true,
          existingStyles.underline⟩)
        ⟨none, none, some "bold", none⟩ [Node.text selectedText]
    else if item.name = "Underline" then
      Node.span (some formattedText)
        (some ⟨existingStyles.foreground, existingStyles.background, existingStyles.bold,
          true⟩)
        ⟨none, none, none, some "underline"⟩ [Node.text selectedText]
    else
      Node.span (some formattedText) (some existingStyles) CSSStyle.empty
        [Node.text selectedText]
  else
    Node.span (some formattedText) (some existingStyles) CSSStyle.empty
      [Node.text selectedText]

/-- The function `applyFormatting(type, code)` as a transformer of the editable
element's child nodes; `range` is what `getSelectedRange()` returns (`none`
for `null`).  Every early `return`, and the `TypeError` of line 53 for an
inherited key, leaves the child nodes as they are. -/
def applyFormatting (type : String) (code : Nat) (range : Option Range)
    (element : List Node) : List Node :=
  match range with
  | none => element
  | some r =>
    let selectedText := r.toString element
    if selectedText = [] then element
    else if type ∈ objectPrototypeKeys then element
    else
      match ansiData type code with
      | none => element
      | some item =>
        let span := buildSpan type code item selectedText
        let deleted := r.deleteContents element
        deleted.2.insertNode span deleted.1

/-! ## generateANSIText (lines 97-112) -/

/-- The body of the `forEach` callback: what one child node appends. -/
def ansiOfNode : Node → List Char
  | .text data => data
  | .span (some (c :: rest)) _ _ _ => c :: rest
  | .span _ _ _ cs => textContentList cs

/-- The function `generateANSIText()`: the accumulator `ansiString` over the
element's child nodes, in order. -/
def generateANSIText (element : List Node) : List Char :=
  element.foldl (fun ansiString node => ansiString ++ ansiOfNode node) []

/-! ## resetFormatting (lines 119-129) -/

/-- The selector `span[data-ansi], span[data-styles][style]`. -/
def Node.matchesResetSelector : Node → Bool
  | .text _ => false
  | .span a st css _ => a.isSome || (st.isSome && decide (css ≠ CSSStyle.empty))

mutual
/-- Lines 122-126 on one node: a span the selector matches is replaced by a
text node holding its `textContent`; the matching spans below it are then
replaced inside the detached span, which the element no longer sees. -/
def Node.replaceSpans : Node → Node
  | .text data => .text data
  | .span a st css cs =>
    if (Node.span a st css cs).matchesResetSelector then .text (textContentList cs)
    else .span a st css (replaceSpansList cs)
/-- Lines 122-126 on a list of sibling nodes. -/
def replaceSpansList : List Node → List Node
  | [] => []
  | node :: rest => node.replaceSpans :: replaceSpansList rest
end

/-- One step of `normalize()` on a node whose following siblings are already
normalized: a text node takes over the data of the text node that follows it,
an empty text node is removed, any other node stays. -/
def mergeText (node : Node) (rest : List Node) : List Node :=
  match node, rest with
  | .text data, .text data' :: rest' => .text (data ++ data') :: rest'
  | .text data, rest' => if data = [] then rest' else .text data :: rest'
  | node, rest' => node :: rest'

mutual
/-- The method `normalize()` on one node. -/
def Node.normalize : Node → Node
  | .text data => .text data
  | .span a st css cs => .span a st css (normalizeList cs)
/-- The method `normalize()` on a list of sibling nodes: empty text nodes are
removed and a text node absorbs the data of the text nodes that follow it. -/
def normalizeList : List Node → List Node
  | [] => []
  | node :: rest => mergeText (Node.normalize node) (normalizeList rest)
end

/-- The function `resetFormatting()`. -/
def resetFormatting (element : List Node) : List Node :=
  normalizeList (replaceSpansList element)

/-! ## The ranges and documents the functions receive -/

/-- A boundary point `(p, off)` lies inside `node`: the path names a node below
it and the offset does not exceed that node's length. -/
def Node.validPoint : List Nat → Nat → Node → Bool
  | [], off, .text data => decide (off ≤ data.length)
  | [], off, .span _ _ _ cs => decide (off ≤ cs.length)
  | _ :: _, _, .text _ => false
  | i :: p, off, .span _ _ _ cs =>
    match cs[i]? with
    | some c => Node.validPoint p off c
    | none => false

/-- A range among the child nodes `cs`: both boundary points lie in the tree
and the start is not after the end. -/
def validRangeIn : List Nat → Nat → List Nat → Nat → List Node → Bool
  | [], so, [], eo, cs => decide (so ≤ eo) && decide (eo ≤ cs.length)
  | [], so, j :: q, eo, cs =>
    decide (so ≤ j) &&
      (match cs[j]? with
        | some c => c.validPoint q eo
        | none => false)
  | i :: p, so, [], eo, cs =>
    decide (i < eo) && decide (eo ≤ cs.length) &&
      (match cs[i]? with
        | some c => c.validPoint p so
        | none => false)
  | i :: p, so, j :: q, eo, cs =>
    if i = j then
      match cs[i]? with
      | some (.text data) =>
        decide (p = []) && decide (q = []) && decide (so ≤ eo) && decide (eo ≤ data.length)
      | some (.span _ _ _ cs') => validRangeIn p so q eo cs'
      | none => false
    else
      decide (i < j) &&
        (match cs[i]? with
          | some c => c.validPoint p so
          | none => false) &&
        (match cs[j]? with
          | some c => c.validPoint q eo
          | none => false)

/-- The ranges the browser can hand over for the element. -/
def Range.isValid (r : Range) (element : List Node) : Bool :=
  validRangeIn r.startContainer r.startOffset r.endContainer r.endOffset element

/-- A run as `generateANSIText` reads the document: the text of one child node
of the editable element and the style map attached to it (none on a text node). -/
structure Run where
  text : List Char
  attributes : StyleMap
deriving DecidableEq, Repr

/-- The run of one child node. -/
def Node.toRun : Node → Run
  | .text data => ⟨data, StyleMap.empty⟩
  | .span _ st _ cs =>
    ⟨textContentList cs,
      match st with
      | some parsed => parsed
      | none => StyleMap.empty⟩

/-- The runs of the document, in the order `generateANSIText` walks them. -/
def runs (element : List Node) : List Run :=
  element.map Node.toRun

/-- The style map in effect inside a span: a slot the span's own map fills
replaces the enclosing value of that kind, the other slots are those in effect
around the span. -/
def StyleMap.inherit (outer inner : StyleMap) : StyleMap :=
  ⟨(match inner.foreground with
      | some code => some code
      | none => outer.foreground),
    (match inner.background with
      | some code => some code
      | none => outer.background),
    inner.bold || outer.bold, inner.underline || outer.underline⟩

/-- The CSS in effect inside a span: a property the span's inline style sets
replaces the enclosing value, the other properties are those in effect around
the span (colour and font weight are inherited, the enclosing background and
text decoration show on the descendants). -/
def CSSStyle.inherit (outer inner : CSSStyle) : CSSStyle :=
  ⟨(match inner.color with
      | some v => some v
      | none => outer.color),
    (match inner.backgroundColor with
      | some v => some v
      | none => outer.backgroundColor),
    (match inner.fontWeight with
      | some v => some v
      | none => outer.fontWeight),
    (match inner.textDecoration with
      | some v => some v
      | none => outer.textDecoration)⟩

/-- A run of the rendered document: the data of one text node, with the style
map and the CSS in effect on it. -/
structure LeafRun where
  text : List Char
  attributes : StyleMap
  style : CSSStyle
deriving DecidableEq, Repr

mutual
/-- The leaf runs below one node, given the style map and the CSS in effect
around it: a text node is one run, a span passes on what is in effect inside
it to its child nodes. -/
def Node.leafRuns (st : StyleMap) (css : CSSStyle) : Node → List LeafRun
  | .text data => [⟨data, st, css⟩]
  | .span _ own ownCss cs =>
    leafRunsList
      (st.inherit
        (match own with
          | some parsed => parsed
          | none => StyleMap.empty))
      (css.inherit ownCss) cs
/-- The leaf runs below a list of sibling nodes, in tree order. -/
def leafRunsList (st : StyleMap) (css : CSSStyle) : List Node → List LeafRun
  | [] => []
  | node :: rest => Node.leafRuns st css node ++ leafRunsList st css rest
end

/-- The text slices of the document in tree order, each with the attributes
in effect on it: those of the spans that enclose it. -/
def leafRuns (element : List Node) : List LeafRun :=
  leafRunsList StyleMap.empty CSSStyle.empty element

/-- The leaf runs on which some attribute is in effect. -/
def formattedLeafRuns (element : List Node) : List LeafRun :=
  (leafRuns element).filter (fun run => decide (run.attributes ≠ StyleMap.empty))

/-- The plain-text document: one text node holding the text. -/
def plainDocument (t : List Char) : List Node :=
  [Node.text t]

/-- The documents `applyFormatting` produces from the plain text `t`, each call
with a range of the document it is applied to. -/
inductive Reachable (t : List Char) : List Node → Prop where
  | plain : Reachable t (plainDocument t)
  | apply (type : String) (code : Nat) (r : Range) (element : List Node) :
      Reachable t element → r.isValid element = true →
      Reachable t (applyFormatting type code (some r) element)

/-- The pair `(type, code)` has an entry in `COLOR_MAPPINGS`: the list under
`type` holds an item with that code. -/
def registered (type : String) (code : Nat) : Bool :=
  match COLOR_MAPPINGS type with
  | some items => items.any (fun item => item.code == code)
  | none => false

/-- Every entry of `COLOR_MAPPINGS`, list after list. -/
def allEntries : List MappingEntry :=
  COLOR_MAPPINGS.foreground ++ COLOR_MAPPINGS.background ++ COLOR_MAPPINGS.styles

/-- A child node as `applyFormatting` leaves it: a text node, or a span whose
`data-ansi` is the escape sequence of one registered code, a non-empty text
and the reset suffix. -/
def Node.singleCode : Node → Prop
  | .text _ => True
  | .span a _ _ _ =>
    ∃ item w, item ∈ allEntries ∧ w ≠ [] ∧
      a = some (ansiPrefixOf item.ansiCode ++ w ++ suffix)

/-! ## Text content under `deleteContents` and `insertNode` -/

theorem textContentList_append (a b : List Node) :
    textContentList (a ++ b) = textContentList a ++ textContentList b := by
  induction a with
  | nil => simp [textContentList]
  | cons n a ih => simp [textContentList, ih]

theorem textContentList_take_drop (cs : List Node) (n : Nat) :
    textContentList (cs.take n) ++ textContentList (cs.drop n) = textContentList cs := by
  rw [← textContentList_append, List.take_append_drop]

theorem split_getElem? {α : Type} (cs : List α) (i : Nat) (c : α) (h : cs[i]? = some c) :
    ∃ pre post, cs = pre ++ c :: post ∧ pre.length = i := by
  refine ⟨cs.take i, cs.drop (i + 1), ?_, ?_⟩
  · induction cs generalizing i with
    | nil => simp at h
    | cons x xs ih =>
      cases i with
      | zero => simp at h; simp [h]
      | succ k => simp at h; simpa using ih k h
  · have := (List.getElem?_eq_some.1 h).1
    simp; omega

theorem zip_get {α : Type} (pre post : List α) (c : α) :
    (pre ++ c :: post)[pre.length]? = some c := by
  rw [List.getElem?_append_right (Nat.le_refl _)]
  simp

theorem zip_take {α : Type} (pre post : List α) (c : α) :
    (pre ++ c :: post).take pre.length = pre := by
  simp

theorem zip_drop {α : Type} (pre post : List α) (c : α) :
    (pre ++ c :: post).drop (pre.length + 1) = post := by
  simp

theorem textContentList_split (cs : List Node) (i : Nat) (c : Node) (h : cs[i]? = some c) :
    textContentList cs =
      textContentList (cs.take i) ++ (c.textContent ++ textContentList (cs.drop (i + 1))) := by
  obtain ⟨pre, post, rfl, rfl⟩ := split_getElem? cs i c h
  simp [textContentList_append, textContentList]

theorem deleteAfter_text (p : List Nat) (off : Nat) (n : Node)
    (h : n.validPoint p off = true) :
    (Node.deleteAfter p off n).textContent ++ Node.textAfter p off n = n.textContent := by
  induction p generalizing n with
  | nil =>
    cases n with
    | text data => simp [Node.deleteAfter, Node.textAfter, Node.textContent]
    | span a st css cs =>
      simp [Node.deleteAfter, Node.textAfter, Node.textContent, textContentList_take_drop]
  | cons i p ih =>
    cases n with
    | text data => simp [Node.validPoint] at h
    | span a st css cs =>
      simp only [Node.validPoint] at h
      cases hc : cs[i]? with
      | none => simp [hc] at h
      | some c =>
        simp only [hc] at h
        simp only [Node.deleteAfter, Node.textAfter, Node.textContent, hc,
          textContentList_append, textContentList, List.append_nil]
        rw [textContentList_split cs i c hc, ← ih c h]
        simp only [List.append_assoc]

theorem deleteBefore_text (p : List Nat) (off : Nat) (n : Node)
    (h : n.validPoint p off = true) :
    Node.textBefore p off n ++ (Node.deleteBefore p off n).textContent = n.textContent := by
  induction p generalizing n with
  | nil =>
    cases n with
    | text data => simp [Node.deleteBefore, Node.textBefore, Node.textContent]
    | span a st css cs =>
      simp [Node.deleteBefore, Node.textBefore, Node.textContent, textContentList_take_drop]
  | cons i p ih =>
    cases n with
    | text data => simp [Node.validPoint] at h
    | span a st css cs =>
      simp only [Node.validPoint] at h
      cases hc : cs[i]? with
      | none => simp [hc] at h
      | some c =>
        simp only [hc] at h
        simp only [Node.deleteBefore, Node.textBefore, Node.textContent, hc,
          textContentList_append, textContentList, List.append_nil]
        rw [textContentList_split cs i c hc, ← ih c h]
        simp

theorem textContentList_mid (cs : List Node) (so eo : Nat) (h : so ≤ eo) :
    textContentList (cs.take so) ++ (textContentList ((cs.take eo).drop so) ++
      textContentList (cs.drop eo)) = textContentList cs := by
  have h1 : (cs.take eo).take so = cs.take so := by
    rw [List.take_take, Nat.min_eq_left h]
  rw [← h1, ← List.append_assoc, textContentList_take_drop, textContentList_take_drop]

theorem insertNodeAt_top (node : Node) (a b : List Node) (off : Nat) (h : a.length = off) :
    insertNodeAt node [] off (a ++ b) = a ++ node :: b := by
  subst h
  simp [insertNodeAt]

theorem length_take_of_getElem? {α : Type} (cs : List α) (i : Nat) (c : α)
    (h : cs[i]? = some c) : (cs.take i).length = i := by
  have := (List.getElem?_eq_some.1 h).1
  simp; omega

theorem textContentList_take_succ (cs : List Node) (i : Nat) (c : Node)
    (h : cs[i]? = some c) :
    textContentList (cs.take (i + 1)) = textContentList (cs.take i) ++ c.textContent := by
  rw [List.take_succ, h]
  simp [textContentList_append, textContentList]

theorem insertNodeAt_text (node : Node) (pre post : List Node) (data : List Char) (i : Nat)
    (p : List Nat) (off : Nat) (h : pre.length = i) :
    insertNodeAt node (i :: p) off (pre ++ Node.text data :: post) =
      pre ++ [Node.text (data.take off), node, Node.text (data.drop off)] ++ post := by
  subst h
  simp only [insertNodeAt, zip_get, zip_take, zip_drop]

theorem insertNodeAt_span (node : Node) (pre post : List Node) (a : Option (List Char))
    (st : Option StyleMap) (css : CSSStyle) (cs : List Node) (i : Nat)
    (p : List Nat) (off : Nat) (h : pre.length = i) :
    insertNodeAt node (i :: p) off (pre ++ Node.span a st css cs :: post) =
      pre ++ [Node.span a st css (insertNodeAt node p off cs)] ++ post := by
  subst h
  simp only [insertNodeAt, zip_get, zip_take, zip_drop]

theorem deleteInsert_text (node : Node) (p : List Nat) (so : Nat) (q : List Nat) (eo : Nat)
    (cs : List Node) (hv : validRangeIn p so q eo cs = true)
    (hn : node.textContent = rangeText p so q eo cs) :
    textContentList (insertNodeAt node (deleteContentsIn p so q eo cs).2.container
      (deleteContentsIn p so q eo cs).2.offset (deleteContentsIn p so q eo cs).1) =
      textContentList cs := by
  induction p generalizing q cs with
  | nil =>
    cases q with
    | nil =>
      simp only [validRangeIn, Bool.and_eq_true, decide_eq_true_eq] at hv
      simp only [rangeText] at hn
      simp only [deleteContentsIn]
      rw [insertNodeAt_top _ _ _ _ (by simp; omega)]
      simp only [textContentList_append, textContentList, hn]
      exact textContentList_mid cs so eo hv.1
    | cons j q =>
      simp only [validRangeIn, Bool.and_eq_true, decide_eq_true_eq] at hv
      cases hc : cs[j]? with
      | none => simp [hc] at hv
      | some c =>
        simp only [hc] at hv
        simp only [rangeText, hc] at hn
        simp only [deleteContentsIn, hc]
        have hj := (List.getElem?_eq_some.1 hc).1
        rw [List.append_assoc, insertNodeAt_top _ _ _ _ (by simp; omega)]
        simp only [textContentList_append, textContentList, hn, List.append_nil,
          List.append_assoc]
        rw [← List.append_assoc (Node.textBefore q eo c), deleteBefore_text q eo c hv.2]
        have h1 := textContentList_mid cs so j hv.1
        rw [← h1, textContentList_split (cs.drop j) 0 c (by simpa using hc)]
        simp [textContentList]
  | cons i p ih =>
    cases q with
    | nil =>
      simp only [validRangeIn, Bool.and_eq_true, decide_eq_true_eq] at hv
      cases hc : cs[i]? with
      | none => simp [hc] at hv
      | some c =>
        simp only [hc] at hv
        simp only [rangeText, hc] at hn
        simp only [deleteContentsIn, hc]
        have hi := length_take_of_getElem? cs i c hc
        rw [insertNodeAt_top _ _ _ _ (by rw [List.length_append, hi]; rfl)]
        simp only [textContentList_append, textContentList, hn, List.append_nil,
          List.append_assoc]
        rw [← List.append_assoc (Node.deleteAfter p so c).textContent,
          deleteAfter_text p so c hv.2]
        have h1 := textContentList_mid cs (i + 1) eo (by omega)
        rw [← h1, textContentList_take_succ cs i c hc]
        simp
    | cons j q =>
      by_cases hij : i = j
      · subst hij
        simp only [validRangeIn, if_true] at hv
        cases hc : cs[i]? with
        | none => simp [hc] at hv
        | some c =>
          obtain ⟨pre, post, rfl, rfl⟩ := split_getElem? cs i c hc
          cases c with
          | text data =>
            simp only [hc, Bool.and_eq_true, decide_eq_true_eq] at hv
            simp only [rangeText, hc, if_true] at hn
            simp only [deleteContentsIn, hc, if_true, zip_take, zip_drop]
            rw [List.append_assoc, List.singleton_append, insertNodeAt_text _ _ _ _ _ _ _ rfl]
            simp only [textContentList_append, textContentList, Node.textContent, hn]
            have e1 : (data.take so ++ data.drop eo).take so = data.take so := by
              rw [List.take_left']; simp; omega
            have e2 : (data.take so ++ data.drop eo).drop so = data.drop eo := by
              rw [List.drop_left']; simp; omega
            rw [e1, e2]
            have e3 : (data.take eo).take so = data.take so := by
              rw [List.take_take, Nat.min_eq_left hv.1.2]
            have e4 : data.take so ++ ((data.take eo).drop so ++ data.drop eo) = data := by
              rw [← e3, ← List.append_assoc, List.take_append_drop, List.take_append_drop]
            simp [e4]
          | span a st css cs' =>
            simp only [hc] at hv
            simp only [rangeText, hc, if_true] at hn
            simp only [deleteContentsIn, hc, if_true, zip_take, zip_drop]
            rw [List.append_assoc, List.singleton_append, insertNodeAt_span _ _ _ _ _ _ _ _ _ _ rfl]
            simp only [textContentList_append, textContentList, Node.textContent]
            rw [ih q cs' hv hn]
            simp
      · simp only [validRangeIn, if_neg hij, Bool.and_eq_true, decide_eq_true_eq] at hv
        cases hci : cs[i]? with
        | none => simp [hci] at hv
        | some ci =>
          cases hcj : cs[j]? with
          | none => simp [hcj] at hv
          | some cj =>
            simp only [hci, hcj] at hv
            simp only [rangeText, hci, hcj, if_neg hij] at hn
            simp only [deleteContentsIn, hci, hcj, if_neg hij]
            have hi := length_take_of_getElem? cs i ci hci
            rw [List.append_assoc, List.append_assoc,
              ← List.append_assoc (List.take i cs),
              insertNodeAt_top _ _ _ _ (by rw [List.length_append, hi]; rfl)]
            simp only [textContentList_append, textContentList, hn, List.append_nil,
              List.append_assoc]
            rw [← List.append_assoc (Node.deleteAfter p so ci).textContent,
              deleteAfter_text p so ci hv.1.2,
              ← List.append_assoc (Node.textBefore q eo cj),
              deleteBefore_text q eo cj hv.2]
            have h1 := textContentList_mid cs (i + 1) j (by omega)
            rw [← h1, textContentList_take_succ cs i ci hci,
              textContentList_split (cs.drop j) 0 cj (by simpa using hcj)]
            simp [textContentList]

theorem foldl_ansi (cs : List Node) (acc : List Char) :
    cs.foldl (fun ansiString node => ansiString ++ ansiOfNode node) acc =
      acc ++ generateANSIText cs := by
  induction cs generalizing acc with
  | nil => simp [generateANSIText]
  | cons n cs ih =>
    simp only [generateANSIText, List.foldl_cons, List.nil_append]
    rw [ih (acc ++ ansiOfNode n), ih (ansiOfNode n)]
    simp [generateANSIText]

theorem generateANSIText_nil : generateANSIText [] = [] := rfl

theorem generateANSIText_cons (n : Node) (cs : List Node) :
    generateANSIText (n :: cs) = ansiOfNode n ++ generateANSIText cs := by
  simp only [generateANSIText, List.foldl_cons, List.nil_append]
  exact foldl_ansi cs (ansiOfNode n)

theorem generateANSIText_append (a b : List Node) :
    generateANSIText (a ++ b) = generateANSIText a ++ generateANSIText b := by
  induction a with
  | nil => simp [generateANSIText_nil]
  | cons n a ih => simp [generateANSIText_cons, ih]

theorem ansiOfNode_buildSpan (type : String) (code : Nat) (item : MappingEntry)
    (sel : List Char) :
    ansiOfNode (buildSpan type code item sel) = ansiPrefixOf item.ansiCode ++ sel ++ suffix := by
  unfold buildSpan
  simp only [ansiPrefixOf]
  split_ifs <;> simp [ansiOfNode]

theorem textContent_buildSpan (type : String) (code : Nat) (item : MappingEntry)
    (sel : List Char) :
    (buildSpan type code item sel).textContent = sel := by
  unfold buildSpan
  split_ifs <;> simp [Node.textContent, textContentList]

theorem ansi_buildSpan (type : String) (code : Nat) (item : MappingEntry)
    (sel : List Char) :
    buildSpan type code item sel =
      Node.span (some (ansiPrefixOf item.ansiCode ++ sel ++ suffix))
        (buildSpan type code item sel).styles
        (match buildSpan type code item sel with
          | .text _ => CSSStyle.empty
          | .span _ _ css _ => css) [Node.text sel] := by
  unfold buildSpan
  split_ifs <;> simp [Node.styles]

theorem registered_ansiData (type : String) (code : Nat) (h : registered type code = true) :
    type ∉ objectPrototypeKeys ∧ ∃ item, ansiData type code = some item ∧ item.ansiCode = code := by
  unfold registered COLOR_MAPPINGS at h
  split_ifs at h with h1 h2 h3
  · subst h1
    simp [COLOR_MAPPINGS.foreground] at h
    refine ⟨by decide, ?_⟩
    rcases h with h | h | h | h | h | h | h <;> subst h <;> exact ⟨_, rfl, rfl⟩
  · subst h2
    simp [COLOR_MAPPINGS.background] at h
    refine ⟨by decide, ?_⟩
    rcases h with h | h | h | h | h | h <;> subst h <;> exact ⟨_, rfl, rfl⟩
  · subst h3
    simp [COLOR_MAPPINGS.styles] at h
    refine ⟨by decide, ?_⟩
    rcases h with h | h <;> subst h <;> exact ⟨_, rfl, rfl⟩

theorem applyFormatting_in_text (element : List Node) (i : Nat) (data : List Char)
    (s e : Nat) (type : String) (code : Nat) (item : MappingEntry)
    (hi : element[i]? = some (Node.text data)) (hs : s < e) (he : e ≤ data.length)
    (hk : type ∉ objectPrototypeKeys) (ha : ansiData type code = some item) :
    applyFormatting type code (some ⟨[i], s, [i], e⟩) element =
      element.take i ++ [Node.text (data.take s),
        buildSpan type code item ((data.take e).drop s), Node.text (data.drop e)] ++
        element.drop (i + 1) := by
  have hsel : rangeText [i] s [i] e element = (data.take e).drop s := by
    simp [rangeText, hi]
  have hne : (data.take e).drop s ≠ [] := by
    intro h0
    have := congrArg List.length h0
    simp at this
    omega
  obtain ⟨pre, post, rfl, rfl⟩ := split_getElem? element i _ hi
  simp only [applyFormatting, Range.toString, hsel, hne, if_false, hk, ha,
    Range.deleteContents, deleteContentsIn, hi, if_true, BoundaryPoint.insertNode,
    zip_take, zip_drop]
  rw [List.append_assoc, List.singleton_append, insertNodeAt_text _ _ _ _ _ _ _ rfl]
  have e1 : (data.take s ++ data.drop e).take s = data.take s := by
    rw [List.take_left']; simp; omega
  have e2 : (data.take s ++ data.drop e).drop s = data.drop e := by
    rw [List.drop_left']; simp; omega
  rw [e1, e2]

/-- C1: formatting a selection of a plain-text document. For every text `t`,
every selection `s < e ≤ length t` inside its single text node and every
`(type, code)` that `COLOR_MAPPINGS` registers, `generateANSIText` after
`applyFormatting` returns the text before the selection, ESC `[` the decimal
code `m`, the selected text, ESC `[0m`, and the text after the selection; for
"hello world" with foreground 31 on `[0,5)` this is ESC`[31mhello`ESC`[0m world`. -/
theorem C1_generateANSIText_after_applyFormatting (t : List Char) (s e : Nat)
    (type : String) (code : Nat) (hs : s < e) (he : e ≤ t.length)
    (hr : registered type code = true) :
    generateANSIText (applyFormatting type code (some ⟨[0], s, [0], e⟩) (plainDocument t)) =
        t.take s ++ (ESC :: '[' :: (Nat.toDigits 10 code ++ ['m'])) ++ (t.take e).drop s ++
          [ESC, '[', '0', 'm'] ++ t.drop e ∧
      generateANSIText (applyFormatting "foreground" 31 (some ⟨[0], 0, [0], 5⟩)
        (plainDocument "hello world".toList)) = "\u001b[31mhello\u001b[0m world".toList := by
  refine ⟨?_, by decide⟩
  obtain ⟨hk, item, ha, hcode⟩ := registered_ansiData type code hr
  rw [plainDocument, applyFormatting_in_text [Node.text t] 0 t s e type code item rfl hs he hk ha]
  simp only [List.take_zero, List.nil_append, List.drop_succ_cons, List.drop_zero,
    List.cons_append, generateANSIText_cons, generateANSIText_nil, ansiOfNode_buildSpan]
  simp [ansiOfNode, ansiPrefixOf, suffix, hcode]

/-- Witness of C1 at "hello world", foreground 31, `[0,5)`. -/
theorem C1_witness :
    (0 < 5 ∧ 5 ≤ "hello world".toList.length ∧ registered "foreground" 31 = true) ∧
      (generateANSIText (applyFormatting "foreground" 31 (some ⟨[0], 0, [0], 5⟩)
          (plainDocument "hello world".toList)) =
        "hello world".toList.take 0 ++ (ESC :: '[' :: (Nat.toDigits 10 31 ++ ['m'])) ++
          ("hello world".toList.take 5).drop 0 ++ [ESC, '[', '0', 'm'] ++
          "hello world".toList.drop 5 ∧
      generateANSIText (applyFormatting "foreground" 31 (some ⟨[0], 0, [0], 5⟩)
        (plainDocument "hello world".toList)) = "\u001b[31mhello\u001b[0m world".toList) :=
  ⟨by decide, C1_generateANSIText_after_applyFormatting "hello world".toList 0 5
    "foreground" 31 (by decide) (by decide) (by decide)⟩

theorem rangeText_collapsed (p : List Nat) (off : Nat) (cs : List Node) :
    rangeText p off p off cs = [] := by
  induction p generalizing cs with
  | nil =>
    have h : (cs.take off).drop off = [] := by
      apply List.drop_eq_nil_of_le
      simp
    simp [rangeText, h, textContentList]
  | cons i p ih =>
    simp only [rangeText, if_true]
    cases hc : cs[i]? with
    | none => rfl
    | some c =>
      cases c with
      | text data =>
        simp
      | span a st css cs' => exact ih cs'

theorem findByCode_none_of_any (items : List MappingEntry) (code : Nat)
    (h : items.any (fun item => item.code == code) = false) : findByCode items code = none := by
  unfold findByCode
  rw [List.find?_eq_none]
  intro x hx
  rw [List.any_eq_false] at h
  exact h x hx

theorem ansiData_none (type : String) (code : Nat) (h1 : registered type code = false)
    (h2 : registered "styles" code = false) : ansiData type code = none := by
  have hs : findByCode COLOR_MAPPINGS.styles code = none := by
    apply findByCode_none_of_any
    simpa [registered, COLOR_MAPPINGS] using h2
  unfold ansiData
  unfold registered at h1
  cases hc : COLOR_MAPPINGS type with
  | none => simp [hs]
  | some items =>
    simp only [hc] at h1
    simp [findByCode_none_of_any items code h1, hs]

/-- C9: no-op on an empty selection. For every document, every boundary point
and every `(type, code)`, `applyFormatting` with the collapsed range at that
point returns the child nodes unchanged: the same run sequence with the same
attributes and the same `generateANSIText` output. -/
theorem C9_applyFormatting_collapsed_range (type : String) (code : Nat)
    (container : List Nat) (offset : Nat) (element : List Node) :
    applyFormatting type code (some ⟨container, offset, container, offset⟩) element = element ∧
      runs (applyFormatting type code (some ⟨container, offset, container, offset⟩) element) =
        runs element ∧
      generateANSIText
          (applyFormatting type code (some ⟨container, offset, container, offset⟩) element) =
        generateANSIText element := by
  have h : applyFormatting type code (some ⟨container, offset, container, offset⟩) element =
      element := by
    simp [applyFormatting, Range.toString, rangeText_collapsed]
  simp [h]

/-- C5 fails as stated: `COLOR_MAPPINGS` has no entry with code 1 under
`foreground`, yet `applyFormatting('foreground', 1)` on "hello" of
"hello world" changes the document, and `generateANSIText` returns
ESC`[1mhello`ESC`[0m world`. -/
theorem C5_counterexample :
    registered "foreground" 1 = false ∧
      generateANSIText (applyFormatting "foreground" 1 (some ⟨[0], 0, [0], 5⟩)
        (plainDocument "hello world".toList)) = "\u001b[1mhello\u001b[0m world".toList ∧
      generateANSIText (applyFormatting "foreground" 1 (some ⟨[0], 0, [0], 5⟩)
        (plainDocument "hello world".toList)) ≠
        generateANSIText (plainDocument "hello world".toList) := by
  decide

/-- C5 as amended: for every document, every range and every `(type, code)`
for which `COLOR_MAPPINGS` has no entry with that code under `type` and none
under `styles` (the list line 53 falls back to), `applyFormatting` returns
without changing the document: the child nodes, the run sequence and the
`generateANSIText` output are the same before and after the call. -/
theorem C5_applyFormatting_unknown_code (type : String) (code : Nat) (range : Option Range)
    (element : List Node) (h1 : registered type code = false)
    (h2 : registered "styles" code = false) :
    applyFormatting type code range element = element ∧
      runs (applyFormatting type code range element) = runs element ∧
      generateANSIText (applyFormatting type code range element) =
        generateANSIText element := by
  have h : applyFormatting type code range element = element := by
    unfold applyFormatting
    cases range with
    | none => rfl
    | some r =>
      simp only [ansiData_none type code h1 h2]
      split_ifs <;> rfl
  simp [h]

/-- Witness of the amended C5: background code 41 asked for under `foreground`. -/
theorem C5_witness :
    (registered "foreground" 41 = false ∧ registered "styles" 41 = false) ∧
      (applyFormatting "foreground" 41 (some ⟨[0], 0, [0], 5⟩)
          (plainDocument "hello world".toList) = plainDocument "hello world".toList ∧
        runs (applyFormatting "foreground" 41 (some ⟨[0], 0, [0], 5⟩)
          (plainDocument "hello world".toList)) = runs (plainDocument "hello world".toList) ∧
        generateANSIText (applyFormatting "foreground" 41 (some ⟨[0], 0, [0], 5⟩)
          (plainDocument "hello world".toList)) =
          generateANSIText (plainDocument "hello world".toList)) :=
  ⟨by decide, C5_applyFormatting_unknown_code "foreground" 41 (some ⟨[0], 0, [0], 5⟩)
    (plainDocument "hello world".toList) (by decide) (by decide)⟩

/-- C6: runs outside the selection are untouched. For every document and every
non-empty selection `s < e ≤ length` inside a text node that is child `i` of
the element, `applyFormatting` returns the children before `i` and the children
after `i` as they were, around nodes that hold the text of child `i`, and
`generateANSIText` is the output of the children before, of those nodes and of
the children after; for "hello world" with foreground 31 on `[0,5)`, Bold
(styles 1) on "world" returns ESC`[31mhello`ESC`[0m `ESC`[1mworld`ESC`[0m`. -/
theorem C6_applyFormatting_other_runs (element : List Node) (i : Nat) (data : List Char)
    (s e : Nat) (type : String) (code : Nat)
    (hi : element[i]? = some (Node.text data)) (hs : s < e) (he : e ≤ data.length) :
    (∃ mid,
        applyFormatting type code (some ⟨[i], s, [i], e⟩) element =
          element.take i ++ mid ++ element.drop (i + 1) ∧
        textContentList mid = data ∧
        generateANSIText (applyFormatting type code (some ⟨[i], s, [i], e⟩) element) =
          generateANSIText (element.take i) ++ generateANSIText mid ++
            generateANSIText (element.drop (i + 1))) ∧
      generateANSIText (applyFormatting "styles" 1 (some ⟨[2], 1, [2], 6⟩)
        (applyFormatting "foreground" 31 (some ⟨[0], 0, [0], 5⟩)
          (plainDocument "hello world".toList))) =
        "\u001b[31mhello\u001b[0m \u001b[1mworld\u001b[0m".toList := by
  refine ⟨?_, by decide⟩
  have hsplit : element = element.take i ++ [Node.text data] ++ element.drop (i + 1) := by
    obtain ⟨pre, post, rfl, rfl⟩ := split_getElem? element i _ hi
    simp
  have hdata : data.take s ++ ((data.take e).drop s ++ data.drop e) = data := by
    have e3 : (data.take e).take s = data.take s := by
      rw [List.take_take, Nat.min_eq_left (Nat.le_of_lt hs)]
    rw [← e3, ← List.append_assoc, List.take_append_drop, List.take_append_drop]
  by_cases hk : type ∈ objectPrototypeKeys
  · refine ⟨[Node.text data], ?_, by simp [textContentList, Node.textContent], ?_⟩
    · have : applyFormatting type code (some ⟨[i], s, [i], e⟩) element = element := by
        simp only [applyFormatting, hk, if_true]
        split_ifs <;> rfl
      rw [this]; exact hsplit
    · have : applyFormatting type code (some ⟨[i], s, [i], e⟩) element = element := by
        simp only [applyFormatting, hk, if_true]
        split_ifs <;> rfl
      rw [this, ← generateANSIText_append, ← generateANSIText_append, ← hsplit]
  · cases ha : ansiData type code with
    | none =>
      have : applyFormatting type code (some ⟨[i], s, [i], e⟩) element = element := by
        simp only [applyFormatting, ha]
        split_ifs <;> rfl
      refine ⟨[Node.text data], ?_, by simp [textContentList, Node.textContent], ?_⟩
      · rw [this]; exact hsplit
      · rw [this, ← generateANSIText_append, ← generateANSIText_append, ← hsplit]
    | some item =>
      have := applyFormatting_in_text element i data s e type code item hi hs he hk ha
      refine ⟨_, this, ?_, ?_⟩
      · simp [textContentList, Node.textContent, textContent_buildSpan, hdata]
      · rw [this, generateANSIText_append, generateANSIText_append]

/-- Witness of C6: Bold on "world" after foreground 31 on "hello". -/
theorem C6_witness :
    ((applyFormatting "foreground" 31 (some ⟨[0], 0, [0], 5⟩)
        (plainDocument "hello world".toList))[2]? = some (Node.text " world".toList) ∧
      1 < 6 ∧ 6 ≤ " world".toList.length) ∧
    ((∃ mid,
        applyFormatting "styles" 1 (some ⟨[2], 1, [2], 6⟩)
            (applyFormatting "foreground" 31 (some ⟨[0], 0, [0], 5⟩)
              (plainDocument "hello world".toList)) =
          (applyFormatting "foreground" 31 (some ⟨[0], 0, [0], 5⟩)
              (plainDocument "hello world".toList)).take 2 ++ mid ++
            (applyFormatting "foreground" 31 (some ⟨[0], 0, [0], 5⟩)
              (plainDocument "hello world".toList)).drop (2 + 1) ∧
        textContentList mid = " world".toList ∧
        generateANSIText (applyFormatting "styles" 1 (some ⟨[2], 1, [2], 6⟩)
            (applyFormatting "foreground" 31 (some ⟨[0], 0, [0], 5⟩)
              (plainDocument "hello world".toList))) =
          generateANSIText ((applyFormatting "foreground" 31 (some ⟨[0], 0, [0], 5⟩)
              (plainDocument "hello world".toList)).take 2) ++ generateANSIText mid ++
            generateANSIText ((applyFormatting "foreground" 31 (some ⟨[0], 0, [0], 5⟩)
              (plainDocument "hello world".toList)).drop (2 + 1))) ∧
      generateANSIText (applyFormatting "styles" 1 (some ⟨[2], 1, [2], 6⟩)
        (applyFormatting "foreground" 31 (some ⟨[0], 0, [0], 5⟩)
          (plainDocument "hello world".toList))) =
        "\u001b[31mhello\u001b[0m \u001b[1mworld\u001b[0m".toList) :=
  ⟨⟨rfl, by decide, by decide⟩,
    C6_applyFormatting_other_runs
      (applyFormatting "foreground" 31 (some ⟨[0], 0, [0], 5⟩)
        (plainDocument "hello world".toList)) 2 " world".toList 1 6 "styles" 1
      rfl (by decide) (by decide)⟩

theorem singleCode_deleteAfter (p : List Nat) (off : Nat) (n : Node) (h : n.singleCode) :
    (Node.deleteAfter p off n).singleCode := by
  cases p <;> cases n <;> simp_all [Node.deleteAfter, Node.singleCode]

theorem singleCode_deleteBefore (p : List Nat) (off : Nat) (n : Node) (h : n.singleCode) :
    (Node.deleteBefore p off n).singleCode := by
  cases p <;> cases n <;> simp_all [Node.deleteBefore, Node.singleCode]

theorem mem_of_getElem? {α : Type} (cs : List α) (i : Nat) (c : α) (h : cs[i]? = some c) :
    c ∈ cs := by
  obtain ⟨pre, post, rfl, _⟩ := split_getElem? cs i c h
  simp

theorem singleCode_deleteContentsIn (p : List Nat) (so : Nat) (q : List Nat) (eo : Nat)
    (cs : List Node) (h : ∀ n ∈ cs, n.singleCode) :
    ∀ n ∈ (deleteContentsIn p so q eo cs).1, n.singleCode := by
  have htake : ∀ k, ∀ n ∈ cs.take k, n.singleCode := fun k n hn =>
    h n (List.mem_of_mem_take hn)
  have hdrop : ∀ k, ∀ n ∈ cs.drop k, n.singleCode := fun k n hn =>
    h n (List.mem_of_mem_drop hn)
  intro n hn
  cases p with
  | nil =>
    cases q with
    | nil =>
      simp only [deleteContentsIn, List.mem_append] at hn
      rcases hn with hn | hn
      · exact htake _ n hn
      · exact hdrop _ n hn
    | cons j q =>
      simp only [deleteContentsIn, List.mem_append] at hn
      rcases hn with (hn | hn) | hn
      · exact htake _ n hn
      · cases hc : cs[j]? with
        | none => simp [hc] at hn
        | some c =>
          simp only [hc, List.mem_singleton] at hn
          subst hn
          exact singleCode_deleteBefore q eo c (h c (mem_of_getElem? cs j c hc))
      · exact hdrop _ n hn
  | cons i p =>
    cases q with
    | nil =>
      simp only [deleteContentsIn, List.mem_append] at hn
      rcases hn with (hn | hn) | hn
      · exact htake _ n hn
      · cases hc : cs[i]? with
        | none => simp [hc] at hn
        | some c =>
          simp only [hc, List.mem_singleton] at hn
          subst hn
          exact singleCode_deleteAfter p so c (h c (mem_of_getElem? cs i c hc))
      · exact hdrop _ n hn
    | cons j q =>
      by_cases hij : i = j
      · subst hij
        cases hc : cs[i]? with
        | none =>
          simp only [deleteContentsIn, hc, if_true] at hn
          exact h n hn
        | some c =>
          have hcQ := h c (mem_of_getElem? cs i c hc)
          cases c with
          | text data =>
            simp only [deleteContentsIn, hc, if_true, List.mem_append,
              List.mem_singleton] at hn
            rcases hn with (hn | hn) | hn
            · exact htake _ n hn
            · subst hn; simp [Node.singleCode]
            · exact hdrop _ n hn
          | span a st css cs' =>
            simp only [deleteContentsIn, hc, if_true, List.mem_append,
              List.mem_singleton] at hn
            rcases hn with (hn | hn) | hn
            · exact htake _ n hn
            · subst hn; simpa [Node.singleCode] using hcQ
            · exact hdrop _ n hn
      · simp only [deleteContentsIn, if_neg hij, List.mem_append] at hn
        rcases hn with ((hn | hn) | hn) | hn
        · exact htake _ n hn
        · cases hc : cs[i]? with
          | none => simp [hc] at hn
          | some c =>
            simp only [hc, List.mem_singleton] at hn
            subst hn
            exact singleCode_deleteAfter p so c (h c (mem_of_getElem? cs i c hc))
        · cases hc : cs[j]? with
          | none => simp [hc] at hn
          | some c =>
            simp only [hc, List.mem_singleton] at hn
            subst hn
            exact singleCode_deleteBefore q eo c (h c (mem_of_getElem? cs j c hc))
        · exact hdrop _ n hn

theorem singleCode_insertNodeAt (node : Node) (p : List Nat) (off : Nat) (cs : List Node)
    (h : ∀ n ∈ cs, n.singleCode) (hnode : node.singleCode) :
    ∀ n ∈ insertNodeAt node p off cs, n.singleCode := by
  have htake : ∀ k, ∀ n ∈ cs.take k, n.singleCode := fun k n hn =>
    h n (List.mem_of_mem_take hn)
  have hdrop : ∀ k, ∀ n ∈ cs.drop k, n.singleCode := fun k n hn =>
    h n (List.mem_of_mem_drop hn)
  intro n hn
  cases p with
  | nil =>
    simp only [insertNodeAt, List.mem_append, List.mem_singleton] at hn
    rcases hn with (hn | hn) | hn
    · exact htake _ n hn
    · subst hn; exact hnode
    · exact hdrop _ n hn
  | cons i p =>
    cases hc : cs[i]? with
    | none =>
      simp only [insertNodeAt, hc] at hn
      exact h n hn
    | some c =>
      have hcQ := h c (mem_of_getElem? cs i c hc)
      cases c with
      | text data =>
        simp only [insertNodeAt, hc, List.mem_append, List.mem_cons, List.mem_singleton,
          List.not_mem_nil, or_false] at hn
        rcases hn with (hn | hn | hn | hn) | hn
        · exact htake _ n hn
        · subst hn; simp [Node.singleCode]
        · subst hn; exact hnode
        · subst hn; simp [Node.singleCode]
        · exact hdrop _ n hn
      | span a st css cs' =>
        simp only [insertNodeAt, hc, List.mem_append, List.mem_singleton] at hn
        rcases hn with (hn | hn) | hn
        · exact htake _ n hn
        · subst hn; simpa [Node.singleCode] using hcQ
        · exact hdrop _ n hn

theorem mem_of_findByCode (items : List MappingEntry) (code : Nat) (item : MappingEntry)
    (h : findByCode items code = some item) : item ∈ items :=
  List.mem_of_find?_eq_some h

theorem ansiData_mem (type : String) (code : Nat) (item : MappingEntry)
    (h : ansiData type code = some item) : item ∈ allEntries := by
  unfold ansiData at h
  cases hc : (COLOR_MAPPINGS type).bind (fun items => findByCode items code) with
  | none =>
    simp only [hc] at h
    have := mem_of_findByCode _ _ _ h
    simp [allEntries, this]
  | some found =>
    simp only [hc, Option.some.injEq] at h
    subst h
    cases hm : COLOR_MAPPINGS type with
    | none => simp [hm] at hc
    | some items =>
      simp only [hm, Option.some_bind] at hc
      have hmem := mem_of_findByCode _ _ _ hc
      unfold COLOR_MAPPINGS at hm
      split_ifs at hm <;> simp only [Option.some.injEq] at hm <;> subst hm <;>
        simp [allEntries, hmem]

theorem singleCode_buildSpan (type : String) (code : Nat) (item : MappingEntry)
    (sel : List Char) (hitem : item ∈ allEntries) (hsel : sel ≠ []) :
    (buildSpan type code item sel).singleCode := by
  rw [ansi_buildSpan]
  exact ⟨item, sel, hitem, hsel, rfl⟩

theorem singleCode_applyFormatting (type : String) (code : Nat) (range : Option Range)
    (element : List Node) (h : ∀ n ∈ element, n.singleCode) :
    ∀ n ∈ applyFormatting type code range element, n.singleCode := by
  unfold applyFormatting
  cases range with
  | none => exact h
  | some r =>
    simp only
    split_ifs with h1 h2
    · exact h
    · exact h
    · cases ha : ansiData type code with
      | none => exact h
      | some item =>
        simp only [BoundaryPoint.insertNode, Range.deleteContents]
        exact singleCode_insertNodeAt _ _ _ _
          (singleCode_deleteContentsIn _ _ _ _ _ h)
          (singleCode_buildSpan type code item _ (ansiData_mem type code item ha) h1)

theorem singleCode_of_reachable (t : List Char) (d : List Node) (h : Reachable t d) :
    ∀ n ∈ d, n.singleCode := by
  induction h with
  | plain => simp [plainDocument, Node.singleCode]
  | apply type code r element _ _ ih => exact singleCode_applyFormatting type code _ element ih

theorem textContent_applyFormatting (type : String) (code : Nat) (r : Range)
    (element : List Node) (hv : r.isValid element = true) :
    textContentList (applyFormatting type code (some r) element) = textContentList element := by
  unfold applyFormatting
  simp only
  split_ifs with h1 h2
  · rfl
  · rfl
  · cases ha : ansiData type code with
    | none => rfl
    | some item =>
      simp only [BoundaryPoint.insertNode, Range.deleteContents]
      exact deleteInsert_text _ _ _ _ _ _ hv (textContent_buildSpan type code item _)

theorem resetFormatting_of_singleCode (d : List Node) (h : ∀ n ∈ d, n.singleCode) :
    resetFormatting d =
      if textContentList d = [] then [] else [Node.text (textContentList d)] := by
  induction d with
  | nil => simp [resetFormatting, replaceSpansList, normalizeList, textContentList]
  | cons n d ih =>
    have ihd := ih (fun m hm => h m (List.mem_cons_of_mem _ hm))
    have hn := h n (List.mem_cons_self _ _)
    have hrep : n.replaceSpans = Node.text n.textContent := by
      cases n with
      | text data => simp [Node.replaceSpans, Node.textContent]
      | span a st css cs =>
        obtain ⟨item, w, _, _, ha⟩ := hn
        subst ha
        simp [Node.replaceSpans, Node.matchesResetSelector, Node.textContent]
    unfold resetFormatting at ihd ⊢
    simp only [replaceSpansList, hrep, normalizeList, Node.normalize, textContentList, ihd]
    by_cases hd : textContentList d = []
    · simp [hd, mergeText]
    · simp [hd, mergeText]

/-- C2 fails as stated: after foreground 31 on `[0,5)` and background 41 on
`[2,4)` of "hello world", `generateANSIText` returns ESC`[31mhello`ESC`[0m world`;
the output does not contain the code 41 anywhere, so no prefix that activates
both 31 and 41 precedes the text of `[2,4)`. -/
theorem C2_counterexample :
    generateANSIText (applyFormatting "background" 41 (some ⟨[1, 0], 2, [1, 0], 4⟩)
        (applyFormatting "foreground" 31 (some ⟨[0], 0, [0], 5⟩)
          (plainDocument "hello world".toList))) = "\u001b[31mhello\u001b[0m world".toList ∧
      ¬ ("41".toList <:+: generateANSIText
        (applyFormatting "background" 41 (some ⟨[1, 0], 2, [1, 0], 4⟩)
          (applyFormatting "foreground" 31 (some ⟨[0], 0, [0], 5⟩)
            (plainDocument "hello world".toList)))) := by
  decide

/-- C7 fails as stated: from "abc", foreground 31 on "ab" and then background
41 on the range from the start of the text inside that span to the end of "c"
leave the child nodes: an empty text node, the first span with its text
emptied, the new span, an empty text node. The first two runs are adjacent
and both have zero length. -/
theorem C7_counterexample :
    Reachable "abc".toList
        (applyFormatting "background" 41 (some ⟨[1, 0], 0, [2], 1⟩)
          (applyFormatting "foreground" 31 (some ⟨[0], 0, [0], 2⟩)
            (plainDocument "abc".toList))) ∧
      (runs (applyFormatting "background" 41 (some ⟨[1, 0], 0, [2], 1⟩)
          (applyFormatting "foreground" 31 (some ⟨[0], 0, [0], 2⟩)
            (plainDocument "abc".toList)))).map Run.text =
        [[], [], "abc".toList, []] :=
  ⟨Reachable.apply _ _ _ _ (Reachable.apply _ _ _ _ Reachable.plain (by decide)) (by decide),
    by decide⟩

/-- C7 as amended: for every document reachable from a plain-text document
through any sequence of `applyFormatting` calls, the concatenation of the
runs' texts in document order equals the original full text (each call leaves
the total text content unchanged).  Adjacent runs of zero length can occur. -/
theorem C7_text_preserved (t : List Char) (d : List Node) (h : Reachable t d) :
    textContentList d = t ∧ ((runs d).map Run.text).flatten = t := by
  have key : textContentList d = t := by
    induction h with
    | plain => simp [plainDocument, textContentList, Node.textContent]
    | apply type code r element _ hv ih =>
      rw [textContent_applyFormatting type code r element hv, ih]
  refine ⟨key, ?_⟩
  rw [← key]
  clear key h
  induction d with
  | nil => simp [runs, textContentList]
  | cons n d ih =>
    cases n <;> simp_all [runs, textContentList, Node.toRun, Node.textContent]

/-- Witness of the amended C7 at the document of the counterexample. -/
theorem C7_witness :
    Reachable "abc".toList
        (applyFormatting "background" 41 (some ⟨[1, 0], 0, [2], 1⟩)
          (applyFormatting "foreground" 31 (some ⟨[0], 0, [0], 2⟩)
            (plainDocument "abc".toList))) ∧
      (textContentList (applyFormatting "background" 41 (some ⟨[1, 0], 0, [2], 1⟩)
          (applyFormatting "foreground" 31 (some ⟨[0], 0, [0], 2⟩)
            (plainDocument "abc".toList))) = "abc".toList ∧
        ((runs (applyFormatting "background" 41 (some ⟨[1, 0], 0, [2], 1⟩)
          (applyFormatting "foreground" 31 (some ⟨[0], 0, [0], 2⟩)
            (plainDocument "abc".toList)))).map Run.text).flatten = "abc".toList) :=
  ⟨Reachable.apply _ _ _ _ (Reachable.apply _ _ _ _ Reachable.plain (by decide)) (by decide),
    C7_text_preserved _ _
      (Reachable.apply _ _ _ _ (Reachable.apply _ _ _ _ Reachable.plain (by decide))
        (by decide))⟩

/-- C8 fails as stated on the empty text: `resetFormatting` on the plain
document of the empty text leaves no child node, so the document has no run
rather than exactly one. -/
theorem C8_counterexample :
    Reachable [] (plainDocument []) ∧
      ¬ ((runs (resetFormatting (plainDocument []))).length = 1) :=
  ⟨Reachable.plain, by decide⟩

/-- C8 as amended: for every document `d` reachable from plain text through
`applyFormatting` (formatting inside an already formatted run included),
`resetFormatting` yields exactly one run that carries the full text of `d` and
no attributes when that text is not empty, and no run when it is empty; in
both cases `generateANSIText` after `resetFormatting` returns exactly the
plain text of `d`. -/
theorem C8_resetFormatting_reachable (t : List Char) (d : List Node) (h : Reachable t d) :
    (textContentList d ≠ [] →
        resetFormatting d = [Node.text (textContentList d)] ∧
        runs (resetFormatting d) = [⟨textContentList d, StyleMap.empty⟩]) ∧
      (textContentList d = [] → resetFormatting d = []) ∧
      generateANSIText (resetFormatting d) = textContentList d := by
  have hr := resetFormatting_of_singleCode d (singleCode_of_reachable t d h)
  refine ⟨?_, ?_, ?_⟩
  · intro hne
    rw [hr, if_neg hne]
    exact ⟨rfl, rfl⟩
  · intro he
    rw [hr, if_pos he]
  · rw [hr]
    split_ifs with he
    · rw [he]; rfl
    · simp [generateANSIText_cons, generateANSIText_nil, ansiOfNode]

/-- Witness of the amended C8: reset after nested formatting of "hello world". -/
theorem C8_witness :
    Reachable "hello world".toList
        (applyFormatting "background" 41 (some ⟨[1, 0], 2, [1, 0], 4⟩)
          (applyFormatting "foreground" 31 (some ⟨[0], 0, [0], 5⟩)
            (plainDocument "hello world".toList))) ∧
      ((textContentList (applyFormatting "background" 41 (some ⟨[1, 0], 2, [1, 0], 4⟩)
            (applyFormatting "foreground" 31 (some ⟨[0], 0, [0], 5⟩)
              (plainDocument "hello world".toList))) ≠ [] →
          resetFormatting (applyFormatting "background" 41 (some ⟨[1, 0], 2, [1, 0], 4⟩)
              (applyFormatting "foreground" 31 (some ⟨[0], 0, [0], 5⟩)
                (plainDocument "hello world".toList))) =
            [Node.text (textContentList
              (applyFormatting "background" 41 (some ⟨[1, 0], 2, [1, 0], 4⟩)
                (applyFormatting "foreground" 31 (some ⟨[0], 0, [0], 5⟩)
                  (plainDocument "hello world".toList))))] ∧
          runs (resetFormatting (applyFormatting "background" 41 (some ⟨[1, 0], 2, [1, 0], 4⟩)
              (applyFormatting "foreground" 31 (some ⟨[0], 0, [0], 5⟩)
                (plainDocument "hello world".toList)))) =
            [⟨textContentList (applyFormatting "background" 41 (some ⟨[1, 0], 2, [1, 0], 4⟩)
                (applyFormatting "foreground" 31 (some ⟨[0], 0, [0], 5⟩)
                  (plainDocument "hello world".toList))), StyleMap.empty⟩]) ∧
        (textContentList (applyFormatting "background" 41 (some ⟨[1, 0], 2, [1, 0], 4⟩)
            (applyFormatting "foreground" 31 (some ⟨[0], 0, [0], 5⟩)
              (plainDocument "hello world".toList))) = [] →
          resetFormatting (applyFormatting "background" 41 (some ⟨[1, 0], 2, [1, 0], 4⟩)
              (applyFormatting "foreground" 31 (some ⟨[0], 0, [0], 5⟩)
                (plainDocument "hello world".toList))) = []) ∧
        generateANSIText (resetFormatting
            (applyFormatting "background" 41 (some ⟨[1, 0], 2, [1, 0], 4⟩)
              (applyFormatting "foreground" 31 (some ⟨[0], 0, [0], 5⟩)
                (plainDocument "hello world".toList)))) =
          textContentList (applyFormatting "background" 41 (some ⟨[1, 0], 2, [1, 0], 4⟩)
            (applyFormatting "foreground" 31 (some ⟨[0], 0, [0], 5⟩)
              (plainDocument "hello world".toList)))) :=
  ⟨Reachable.apply _ _ _ _ (Reachable.apply _ _ _ _ Reachable.plain (by decide)) (by decide),
    C8_resetFormatting_reachable _ _
      (Reachable.apply _ _ _ _ (Reachable.apply _ _ _ _ Reachable.plain (by decide))
        (by decide))⟩

/-- C10: idempotent reset. For every document `d` reachable from plain text
through `applyFormatting`, `resetFormatting` applied twice gives the same
document as `resetFormatting` applied once. -/
theorem C10_resetFormatting_idempotent (t : List Char) (d : List Node) (h : Reachable t d) :
    resetFormatting (resetFormatting d) = resetFormatting d := by
  rw [resetFormatting_of_singleCode d (singleCode_of_reachable t d h)]
  split_ifs with he
  · rfl
  · simp [resetFormatting, replaceSpansList, Node.replaceSpans, normalizeList,
      Node.normalize, mergeText, he]

/-- Witness of C10 at "hello world" with foreground 31 on "hello". -/
theorem C10_witness :
    Reachable "hello world".toList
        (applyFormatting "foreground" 31 (some ⟨[0], 0, [0], 5⟩)
          (plainDocument "hello world".toList)) ∧
      resetFormatting (resetFormatting (applyFormatting "foreground" 31 (some ⟨[0], 0, [0], 5⟩)
          (plainDocument "hello world".toList))) =
        resetFormatting (applyFormatting "foreground" 31 (some ⟨[0], 0, [0], 5⟩)
          (plainDocument "hello world".toList)) :=
  ⟨Reachable.apply _ _ _ _ Reachable.plain (by decide),
    C10_resetFormatting_idempotent _ _ (Reachable.apply _ _ _ _ Reachable.plain (by decide))⟩

theorem applyFormatting_in_span (element : List Node) (i : Nat) (a : Option (List Char))
    (st : Option StyleMap) (css : CSSStyle) (cs : List Node) (p : List Nat) (so : Nat)
    (q : List Nat) (eo : Nat) (type : String) (code : Nat)
    (hi : element[i]? = some (Node.span a st css cs)) :
    applyFormatting type code (some ⟨i :: p, so, i :: q, eo⟩) element =
      element.take i ++ [Node.span a st css (applyFormatting type code (some ⟨p, so, q, eo⟩) cs)]
        ++ element.drop (i + 1) := by
  have hsel : rangeText (i :: p) so (i :: q) eo element = rangeText p so q eo cs := by
    simp [rangeText, hi]
  obtain ⟨pre, post, rfl, rfl⟩ := split_getElem? element i _ hi
  simp only [applyFormatting, Range.toString, hsel, zip_take, zip_drop]
  split_ifs with h1 h2
  · simp
  · simp
  · cases ha : ansiData type code with
    | none => simp
    | some item =>
      simp only [Range.deleteContents, deleteContentsIn, hi, if_true, BoundaryPoint.insertNode,
        zip_take, zip_drop]
      rw [List.append_assoc, List.singleton_append,
        insertNodeAt_span _ _ _ _ _ _ _ _ _ _ rfl]

theorem buildSpan_foreground (code : Nat) (item : MappingEntry) (sel : List Char) :
    buildSpan "foreground" code item sel =
      Node.span (some (ansiPrefixOf item.ansiCode ++ sel ++ suffix))
        (some ⟨some code, none, false, false⟩)
        ⟨(findByCode COLOR_MAPPINGS.foreground code).bind MappingEntry.color, none, none, none⟩
        [Node.text sel] := by
  simp [buildSpan, Node.styles, StyleMap.empty]

theorem buildSpan_background (code : Nat) (item : MappingEntry) (sel : List Char) :
    buildSpan "background" code item sel =
      Node.span (some (ansiPrefixOf item.ansiCode ++ sel ++ suffix))
        (some ⟨none, some code, false, false⟩)
        ⟨none, (findByCode COLOR_MAPPINGS.background code).bind MappingEntry.color, none, none⟩
        [Node.text sel] := by
  simp [buildSpan, Node.styles, StyleMap.empty]

/-- C4 fails as stated: after foreground 31 on "hello" of "hello world" and
then foreground 32 on the same text, selected inside the span that the first
call created, `generateANSIText` returns ESC`[31mhello`ESC`[0m world`: the
serialized output for that text activates 31 and not 32. -/
theorem C4_counterexample :
    generateANSIText (applyFormatting "foreground" 32 (some ⟨[1, 0], 0, [1, 0], 5⟩)
        (applyFormatting "foreground" 31 (some ⟨[0], 0, [0], 5⟩)
          (plainDocument "hello world".toList))) = "\u001b[31mhello\u001b[0m world".toList ∧
      "31".toList <:+: generateANSIText
        (applyFormatting "foreground" 32 (some ⟨[1, 0], 0, [1, 0], 5⟩)
          (applyFormatting "foreground" 31 (some ⟨[0], 0, [0], 5⟩)
            (plainDocument "hello world".toList))) ∧
      ¬ ("32".toList <:+: generateANSIText
        (applyFormatting "foreground" 32 (some ⟨[1, 0], 0, [1, 0], 5⟩)
          (applyFormatting "foreground" 31 (some ⟨[0], 0, [0], 5⟩)
            (plainDocument "hello world".toList)))) := by
  decide

/-- C4 as amended: whether foreground 32 replaces foreground 31 depends on the
range of the second call.  For every document, a call whose range has both
ends inside one top-level span with a non-empty `data-ansi` leaves that span
in place with its `data-ansi` and its style map (only its child nodes change,
the new span is nested among them) and leaves the `generateANSIText` output
unchanged, so after foreground 31 and then foreground 32 inside the same span
the output still activates 31 and not 32.  For every plain text and non-empty
selection, when the second call's range is the one that contains the span of
the first call as a whole child, that span is removed and the new span, which
carries only foreground 32, takes its place; the output then activates 32 and
not 31. -/
theorem C4_same_kind_by_range (element : List Node) (i : Nat) (c : Char) (rest : List Char)
    (st : Option StyleMap) (css : CSSStyle) (cs : List Node) (p : List Nat) (so : Nat)
    (q : List Nat) (eo : Nat) (type : String) (code : Nat)
    (hi : element[i]? = some (Node.span (some (c :: rest)) st css cs)) :
    (∃ cs', applyFormatting type code (some ⟨i :: p, so, i :: q, eo⟩) element =
        element.take i ++ [Node.span (some (c :: rest)) st css cs'] ++ element.drop (i + 1)) ∧
      generateANSIText (applyFormatting type code (some ⟨i :: p, so, i :: q, eo⟩) element) =
        generateANSIText element ∧
      (∀ (t : List Char) (s e : Nat), s < e → e ≤ t.length →
        applyFormatting "foreground" 32 (some ⟨[], 1, [], 2⟩)
            (applyFormatting "foreground" 31 (some ⟨[0], s, [0], e⟩) (plainDocument t)) =
          [Node.text (t.take s),
            Node.span (some (ansiPrefixOf 32 ++ (t.take e).drop s ++ suffix))
              (some ⟨some 32, none, false, false⟩) ⟨some "#859900", none, none, none⟩
              [Node.text ((t.take e).drop s)],
            Node.text (t.drop e)] ∧
        generateANSIText (applyFormatting "foreground" 32 (some ⟨[], 1, [], 2⟩)
            (applyFormatting "foreground" 31 (some ⟨[0], s, [0], e⟩) (plainDocument t))) =
          t.take s ++ ansiPrefixOf 32 ++ (t.take e).drop s ++ suffix ++ t.drop e) ∧
      generateANSIText (applyFormatting "foreground" 32 (some ⟨[1, 0], 0, [1, 0], 5⟩)
        (applyFormatting "foreground" 31 (some ⟨[0], 0, [0], 5⟩)
          (plainDocument "hello world".toList))) = "\u001b[31mhello\u001b[0m world".toList := by
  have hA := applyFormatting_in_span element i _ st css cs p so q eo type code hi
  refine ⟨⟨_, hA⟩, ?_, ?_, by decide⟩
  · rw [hA]
    obtain ⟨pre, post, rfl, rfl⟩ := split_getElem? element i _ hi
    simp [generateANSIText_append, generateANSIText_cons, generateANSIText_nil, ansiOfNode]
  · intro t s e hs he
    have hne : (t.take e).drop s ≠ [] := by
      intro h0
      have := congrArg List.length h0
      simp at this
      omega
    have h1 : applyFormatting "foreground" 31 (some ⟨[0], s, [0], e⟩) (plainDocument t) =
        [Node.text (t.take s),
          Node.span (some (ansiPrefixOf 31 ++ (t.take e).drop s ++ suffix))
            (some ⟨some 31, none, false, false⟩) ⟨some "#dc322f", none, none, none⟩
            [Node.text ((t.take e).drop s)],
          Node.text (t.drop e)] := by
      rw [plainDocument, applyFormatting_in_text [Node.text t] 0 t s e "foreground" 31
        ⟨31, "Red", some "#dc322f", 31⟩ rfl hs he (by decide) rfl, buildSpan_foreground]
      rfl
    have h2 : applyFormatting "foreground" 32 (some ⟨[], 1, [], 2⟩)
        (applyFormatting "foreground" 31 (some ⟨[0], s, [0], e⟩) (plainDocument t)) =
        [Node.text (t.take s),
          Node.span (some (ansiPrefixOf 32 ++ (t.take e).drop s ++ suffix))
            (some ⟨some 32, none, false, false⟩) ⟨some "#859900", none, none, none⟩
            [Node.text ((t.take e).drop s)],
          Node.text (t.drop e)] := by
      rw [h1]
      have ha : ansiData "foreground" 32 = some ⟨32, "Green", some "#859900", 32⟩ := rfl
      have hk : "foreground" ∉ objectPrototypeKeys := by decide
      simp only [applyFormatting, Range.toString, rangeText, List.take, List.drop,
        textContentList, Node.textContent, List.append_nil, hne, if_false, hk, ha,
        Range.deleteContents, deleteContentsIn, BoundaryPoint.insertNode, insertNodeAt,
        buildSpan_foreground, List.nil_append, List.cons_append, List.singleton_append]
      rfl
    refine ⟨h2, ?_⟩
    rw [h2]
    simp [generateANSIText_cons, generateANSIText_nil, ansiOfNode, ansiPrefixOf]

/-- Witness of the amended C4 at "hello world" with foreground 31 on "hello". -/
theorem C4_witness :
    (applyFormatting "foreground" 31 (some ⟨[0], 0, [0], 5⟩)
        (plainDocument "hello world".toList))[1]? =
      some (Node.span (some ('\x1b' :: "[31mhello\u001b[0m".toList))
        (some ⟨some 31, none, false, false⟩) ⟨some "#dc322f", none, none, none⟩
        [Node.text "hello".toList]) ∧
    ((∃ cs', applyFormatting "foreground" 32 (some ⟨1 :: [0], 0, 1 :: [0], 5⟩)
          (applyFormatting "foreground" 31 (some ⟨[0], 0, [0], 5⟩)
            (plainDocument "hello world".toList)) =
        (applyFormatting "foreground" 31 (some ⟨[0], 0, [0], 5⟩)
            (plainDocument "hello world".toList)).take 1 ++
          [Node.span (some ('\x1b' :: "[31mhello\u001b[0m".toList))
            (some ⟨some 31, none, false, false⟩) ⟨some "#dc322f", none, none, none⟩ cs'] ++
          (applyFormatting "foreground" 31 (some ⟨[0], 0, [0], 5⟩)
            (plainDocument "hello world".toList)).drop (1 + 1)) ∧
      generateANSIText (applyFormatting "foreground" 32 (some ⟨1 :: [0], 0, 1 :: [0], 5⟩)
          (applyFormatting "foreground" 31 (some ⟨[0], 0, [0], 5⟩)
            (plainDocument "hello world".toList))) =
        generateANSIText (applyFormatting "foreground" 31 (some ⟨[0], 0, [0], 5⟩)
          (plainDocument "hello world".toList)) ∧
      (∀ (t : List Char) (s e : Nat), s < e → e ≤ t.length →
        applyFormatting "foreground" 32 (some ⟨[], 1, [], 2⟩)
            (applyFormatting "foreground" 31 (some ⟨[0], s, [0], e⟩) (plainDocument t)) =
          [Node.text (t.take s),
            Node.span (some (ansiPrefixOf 32 ++ (t.take e).drop s ++ suffix))
              (some ⟨some 32, none, false, false⟩) ⟨some "#859900", none, none, none⟩
              [Node.text ((t.take e).drop s)],
            Node.text (t.drop e)] ∧
        generateANSIText (applyFormatting "foreground" 32 (some ⟨[], 1, [], 2⟩)
            (applyFormatting "foreground" 31 (some ⟨[0], s, [0], e⟩) (plainDocument t))) =
          t.take s ++ ansiPrefixOf 32 ++ (t.take e).drop s ++ suffix ++ t.drop e) ∧
      generateANSIText (applyFormatting "foreground" 32 (some ⟨[1, 0], 0, [1, 0], 5⟩)
        (applyFormatting "foreground" 31 (some ⟨[0], 0, [0], 5⟩)
          (plainDocument "hello world".toList))) = "\u001b[31mhello\u001b[0m world".toList) :=
  ⟨rfl, C4_same_kind_by_range
    (applyFormatting "foreground" 31 (some ⟨[0], 0, [0], 5⟩)
      (plainDocument "hello world".toList)) 1 '\x1b' "[31mhello\u001b[0m".toList
    (some ⟨some 31, none, false, false⟩) ⟨some "#dc322f", none, none, none⟩
    [Node.text "hello".toList] [0] 0 [0] 5 "foreground" 32 rfl⟩

theorem nested_document (t : List Char) (h : 5 ≤ t.length) :
    applyFormatting "background" 41 (some ⟨[1, 0], 2, [1, 0], 4⟩)
        (applyFormatting "foreground" 31 (some ⟨[0], 0, [0], 5⟩) (plainDocument t)) =
      [Node.text [],
        Node.span (some (ansiPrefixOf 31 ++ t.take 5 ++ suffix))
          (some ⟨some 31, none, false, false⟩) ⟨some "#dc322f", none, none, none⟩
          [Node.text (t.take 2),
            Node.span (some (ansiPrefixOf 41 ++ (t.take 4).drop 2 ++ suffix))
              (some ⟨none, some 41, false, false⟩) ⟨none, some "#cb4b16", none, none⟩
              [Node.text ((t.take 4).drop 2)],
            Node.text ((t.take 5).drop 4)],
        Node.text (t.drop 5)] := by
  have h1 : applyFormatting "foreground" 31 (some ⟨[0], 0, [0], 5⟩) (plainDocument t) =
      [Node.text [],
        Node.span (some (ansiPrefixOf 31 ++ t.take 5 ++ suffix))
          (some ⟨some 31, none, false, false⟩) ⟨some "#dc322f", none, none, none⟩
          [Node.text (t.take 5)],
        Node.text (t.drop 5)] := by
    rw [plainDocument, applyFormatting_in_text [Node.text t] 0 t 0 5 "foreground" 31
      ⟨31, "Red", some "#dc322f", 31⟩ rfl (by decide) h (by decide) rfl,
      buildSpan_foreground]
    rfl
  have hlen : (t.take 5).length = 5 := by simp; omega
  have h2 := applyFormatting_in_text [Node.text (t.take 5)] 0 (t.take 5) 2 4 "background" 41
    ⟨41, "Red", some "#cb4b16", 41⟩ rfl (by decide) (by omega) (by decide) rfl
  have e1 : (t.take 5).take 2 = t.take 2 := by rw [List.take_take]; rfl
  have e2 : (t.take 5).take 4 = t.take 4 := by rw [List.take_take]; rfl
  rw [h1, applyFormatting_in_span _ 1 _ _ _ _ [0] 2 [0] 4 "background" 41 rfl, h2, e1, e2,
    buildSpan_background]
  rfl

/-- C3: disjoint attributes compose. For every plain document of at least 5
characters, `applyFormatting('foreground', 31)` on `[0,5)` followed by
`applyFormatting('background', 41)` on `[2,4)` yields three formatted runs: the
text slices `[0,2)`, `[2,4)` and `[4,5)`, in this order after an empty
unformatted slice and before the unformatted rest.  On the slices `[0,2)` and
`[4,5)` only foreground 31 is in effect; on the middle slice `[2,4)` both
foreground 31 (from the enclosing span) and background 41 are in effect. -/
theorem C3_disjoint_attributes_compose (t : List Char) (h : 5 ≤ t.length) :
    leafRuns (applyFormatting "background" 41 (some ⟨[1, 0], 2, [1, 0], 4⟩)
        (applyFormatting "foreground" 31 (some ⟨[0], 0, [0], 5⟩) (plainDocument t))) =
      [⟨[], StyleMap.empty, CSSStyle.empty⟩,
        ⟨t.take 2, ⟨some 31, none, false, false⟩, ⟨some "#dc322f", none, none, none⟩⟩,
        ⟨(t.take 4).drop 2, ⟨some 31, some 41, false, false⟩,
          ⟨some "#dc322f", some "#cb4b16", none, none⟩⟩,
        ⟨(t.take 5).drop 4, ⟨some 31, none, false, false⟩,
          ⟨some "#dc322f", none, none, none⟩⟩,
        ⟨t.drop 5, StyleMap.empty, CSSStyle.empty⟩] ∧
      formattedLeafRuns (applyFormatting "background" 41 (some ⟨[1, 0], 2, [1, 0], 4⟩)
        (applyFormatting "foreground" 31 (some ⟨[0], 0, [0], 5⟩) (plainDocument t))) =
      [⟨t.take 2, ⟨some 31, none, false, false⟩, ⟨some "#dc322f", none, none, none⟩⟩,
        ⟨(t.take 4).drop 2, ⟨some 31, some 41, false, false⟩,
          ⟨some "#dc322f", some "#cb4b16", none, none⟩⟩,
        ⟨(t.take 5).drop 4, ⟨some 31, none, false, false⟩,
          ⟨some "#dc322f", none, none, none⟩⟩] := by
  have hl : leafRuns (applyFormatting "background" 41 (some ⟨[1, 0], 2, [1, 0], 4⟩)
      (applyFormatting "foreground" 31 (some ⟨[0], 0, [0], 5⟩) (plainDocument t))) =
      [⟨[], StyleMap.empty, CSSStyle.empty⟩,
        ⟨t.take 2, ⟨some 31, none, false, false⟩, ⟨some "#dc322f", none, none, none⟩⟩,
        ⟨(t.take 4).drop 2, ⟨some 31, some 41, false, false⟩,
          ⟨some "#dc322f", some "#cb4b16", none, none⟩⟩,
        ⟨(t.take 5).drop 4, ⟨some 31, none, false, false⟩,
          ⟨some "#dc322f", none, none, none⟩⟩,
        ⟨t.drop 5, StyleMap.empty, CSSStyle.empty⟩] := by
    rw [nested_document t h]
    rfl
  refine ⟨hl, ?_⟩
  rw [formattedLeafRuns, hl]
  rfl

/-- C3 at "hello world": the formatted runs are "he", "ll" and "o". -/
theorem C3_witness :
    5 ≤ "hello world".toList.length ∧
    (leafRuns (applyFormatting "background" 41 (some ⟨[1, 0], 2, [1, 0], 4⟩)
        (applyFormatting "foreground" 31 (some ⟨[0], 0, [0], 5⟩)
          (plainDocument "hello world".toList))) =
      [⟨[], StyleMap.empty, CSSStyle.empty⟩,
        ⟨"hello world".toList.take 2, ⟨some 31, none, false, false⟩,
          ⟨some "#dc322f", none, none, none⟩⟩,
        ⟨("hello world".toList.take 4).drop 2, ⟨some 31, some 41, false, false⟩,
          ⟨some "#dc322f", some "#cb4b16", none, none⟩⟩,
        ⟨("hello world".toList.take 5).drop 4, ⟨some 31, none, false, false⟩,
          ⟨some "#dc322f", none, none, none⟩⟩,
        ⟨"hello world".toList.drop 5, StyleMap.empty, CSSStyle.empty⟩] ∧
      formattedLeafRuns (applyFormatting "background" 41 (some ⟨[1, 0], 2, [1, 0], 4⟩)
        (applyFormatting "foreground" 31 (some ⟨[0], 0, [0], 5⟩)
          (plainDocument "hello world".toList))) =
      [⟨"hello world".toList.take 2, ⟨some 31, none, false, false⟩,
          ⟨some "#dc322f", none, none, none⟩⟩,
        ⟨("hello world".toList.take 4).drop 2, ⟨some 31, some 41, false, false⟩,
          ⟨some "#dc322f", some "#cb4b16", none, none⟩⟩,
        ⟨("hello world".toList.take 5).drop 4, ⟨some 31, none, false, false⟩,
          ⟨some "#dc322f", none, none, none⟩⟩]) :=
  ⟨by decide, C3_disjoint_attributes_compose "hello world".toList (by decide)⟩

theorem ansiData_code (type : String) (code : Nat) (item : MappingEntry)
    (h : ansiData type code = some item) : item.ansiCode = code := by
  have hmem := ansiData_mem type code item h
  have hall : ∀ e ∈ allEntries, e.ansiCode = e.code := by decide
  have hcode : item.code = code := by
    unfold ansiData at h
    cases hc : (COLOR_MAPPINGS type).bind (fun items => findByCode items code) with
    | none =>
      simp only [hc] at h
      have := List.find?_some h
      simpa using this
    | some found =>
      simp only [hc, Option.some.injEq] at h
      subst h
      cases hm : COLOR_MAPPINGS type with
      | none => simp [hm] at hc
      | some items =>
        simp only [hm, Option.some_bind] at hc
        have := List.find?_some hc
        simpa using this
  rw [hall item hmem, hcode]

theorem kept_deleteAfter (P : Node → Prop) (hText : ∀ data, P (Node.text data))
    (hSpan : ∀ a st css cs cs', P (Node.span a st css cs) → P (Node.span a st css cs'))
    (p : List Nat) (off : Nat) (n : Node) (h : P n) : P (Node.deleteAfter p off n) := by
  cases p <;> cases n <;> simp only [Node.deleteAfter]
  · exact hText _
  · exact hSpan _ _ _ _ _ h
  · exact hText _
  · exact hSpan _ _ _ _ _ h

theorem kept_deleteBefore (P : Node → Prop) (hText : ∀ data, P (Node.text data))
    (hSpan : ∀ a st css cs cs', P (Node.span a st css cs) → P (Node.span a st css cs'))
    (p : List Nat) (off : Nat) (n : Node) (h : P n) : P (Node.deleteBefore p off n) := by
  cases p <;> cases n <;> simp only [Node.deleteBefore]
  · exact hText _
  · exact hSpan _ _ _ _ _ h
  · exact hText _
  · exact hSpan _ _ _ _ _ h

theorem kept_deleteContentsIn (P : Node → Prop) (hText : ∀ data, P (Node.text data))
    (hSpan : ∀ a st css cs cs', P (Node.span a st css cs) → P (Node.span a st css cs'))
    (p : List Nat) (so : Nat) (q : List Nat) (eo : Nat)
    (cs : List Node) (h : ∀ n ∈ cs, P n) :
    ∀ n ∈ (deleteContentsIn p so q eo cs).1, P n := by
  have htake : ∀ k, ∀ n ∈ cs.take k, P n := fun k n hn =>
    h n (List.mem_of_mem_take hn)
  have hdrop : ∀ k, ∀ n ∈ cs.drop k, P n := fun k n hn =>
    h n (List.mem_of_mem_drop hn)
  have hA : ∀ (i : Nat) (p : List Nat) (so : Nat) (n : Node), n ∈ (match cs[i]? with
      | some c => [Node.deleteAfter p so c]
      | none => []) → P n := by
    intro i p so n hn
    cases hc : cs[i]? with
    | none => simp [hc] at hn
    | some c =>
      simp only [hc, List.mem_singleton] at hn
      subst hn
      exact kept_deleteAfter P hText hSpan p so c (h c (mem_of_getElem? cs i c hc))
  have hB : ∀ (j : Nat) (q : List Nat) (eo : Nat) (n : Node), n ∈ (match cs[j]? with
      | some c => [Node.deleteBefore q eo c]
      | none => []) → P n := by
    intro j q eo n hn
    cases hc : cs[j]? with
    | none => simp [hc] at hn
    | some c =>
      simp only [hc, List.mem_singleton] at hn
      subst hn
      exact kept_deleteBefore P hText hSpan q eo c (h c (mem_of_getElem? cs j c hc))
  intro n hn
  cases p with
  | nil =>
    cases q with
    | nil =>
      simp only [deleteContentsIn, List.mem_append] at hn
      rcases hn with hn | hn
      · exact htake _ n hn
      · exact hdrop _ n hn
    | cons j q =>
      simp only [deleteContentsIn, List.mem_append] at hn
      rcases hn with (hn | hn) | hn
      · exact htake _ n hn
      · exact hB _ _ _ n hn
      · exact hdrop _ n hn
  | cons i p =>
    cases q with
    | nil =>
      simp only [deleteContentsIn, List.mem_append] at hn
      rcases hn with (hn | hn) | hn
      · exact htake _ n hn
      · exact hA _ _ _ n hn
      · exact hdrop _ n hn
    | cons j q =>
      by_cases hij : i = j
      · subst hij
        cases hc : cs[i]? with
        | none =>
          simp only [deleteContentsIn, hc, if_true] at hn
          exact h n hn
        | some c =>
          have hcP := h c (mem_of_getElem? cs i c hc)
          cases c with
          | text data =>
            simp only [deleteContentsIn, hc, if_true, List.mem_append,
              List.mem_singleton] at hn
            rcases hn with (hn | hn) | hn
            · exact htake _ n hn
            · subst hn; exact hText _
            · exact hdrop _ n hn
          | span a st css cs' =>
            simp only [deleteContentsIn, hc, if_true, List.mem_append,
              List.mem_singleton] at hn
            rcases hn with (hn | hn) | hn
            · exact htake _ n hn
            · subst hn; exact hSpan _ _ _ _ _ hcP
            · exact hdrop _ n hn
      · simp only [deleteContentsIn, if_neg hij, List.mem_append] at hn
        rcases hn with ((hn | hn) | hn) | hn
        · exact htake _ n hn
        · exact hA _ _ _ n hn
        · exact hB _ _ _ n hn
        · exact hdrop _ n hn

theorem kept_insertNodeAt (P : Node → Prop) (hText : ∀ data, P (Node.text data))
    (hSpan : ∀ a st css cs cs', P (Node.span a st css cs) → P (Node.span a st css cs'))
    (node : Node) (p : List Nat) (off : Nat) (cs : List Node)
    (h : ∀ n ∈ cs, P n) :
    ∀ n ∈ insertNodeAt node p off cs, n = node ∨ P n := by
  have htake : ∀ k, ∀ n ∈ cs.take k, P n := fun k n hn =>
    h n (List.mem_of_mem_take hn)
  have hdrop : ∀ k, ∀ n ∈ cs.drop k, P n := fun k n hn =>
    h n (List.mem_of_mem_drop hn)
  intro n hn
  cases p with
  | nil =>
    simp only [insertNodeAt, List.mem_append, List.mem_singleton] at hn
    rcases hn with (hn | hn) | hn
    · exact Or.inr (htake _ n hn)
    · exact Or.inl hn
    · exact Or.inr (hdrop _ n hn)
  | cons i p =>
    cases hc : cs[i]? with
    | none =>
      simp only [insertNodeAt, hc] at hn
      exact Or.inr (h n hn)
    | some c =>
      have hcP := h c (mem_of_getElem? cs i c hc)
      cases c with
      | text data =>
        simp only [insertNodeAt, hc, List.mem_append, List.mem_cons, List.mem_singleton,
          List.not_mem_nil, or_false] at hn
        rcases hn with (hn | hn | hn | hn) | hn
        · exact Or.inr (htake _ n hn)
        · subst hn; exact Or.inr (hText _)
        · exact Or.inl hn
        · subst hn; exact Or.inr (hText _)
        · exact Or.inr (hdrop _ n hn)
      | span a st css cs' =>
        simp only [insertNodeAt, hc, List.mem_append, List.mem_singleton] at hn
        rcases hn with (hn | hn) | hn
        · exact Or.inr (htake _ n hn)
        · subst hn; exact Or.inr (hSpan _ _ _ _ _ hcP)
        · exact Or.inr (hdrop _ n hn)

theorem inserted_present (node : Node) (p : List Nat) (so : Nat) (q : List Nat) (eo : Nat)
    (cs : List Node)
    (hn : ¬ ∃ i p' q' a st css cs', p = i :: p' ∧ q = i :: q' ∧
      cs[i]? = some (Node.span a st css cs')) :
    ∃ before after,
      insertNodeAt node (deleteContentsIn p so q eo cs).2.container
        (deleteContentsIn p so q eo cs).2.offset (deleteContentsIn p so q eo cs).1 =
        before ++ node :: after := by
  have top : ∀ off (l : List Node), ∃ before after,
      insertNodeAt node [] off l = before ++ node :: after := by
    intro off l
    exact ⟨l.take off, l.drop off, by simp [insertNodeAt]⟩
  cases p with
  | nil =>
    cases q with
    | nil => simp only [deleteContentsIn]; exact top _ _
    | cons j q => simp only [deleteContentsIn]; exact top _ _
  | cons i p =>
    cases q with
    | nil => simp only [deleteContentsIn]; exact top _ _
    | cons j q =>
      by_cases hij : i = j
      · subst hij
        cases hc : cs[i]? with
        | none => simp only [deleteContentsIn, hc, if_true]; exact top _ _
        | some c =>
          cases c with
          | text data =>
            obtain ⟨pre, post, rfl, rfl⟩ := split_getElem? cs i _ hc
            simp only [deleteContentsIn, hc, if_true, zip_take, zip_drop]
            rw [List.append_assoc, List.singleton_append,
              insertNodeAt_text _ _ _ _ _ _ _ rfl]
            exact ⟨pre ++ [Node.text ((data.take so ++ data.drop eo).take so)],
              Node.text ((data.take so ++ data.drop eo).drop so) :: post, by simp⟩
          | span a st css cs' =>
            exact absurd ⟨i, p, q, a, st, css, cs', rfl, rfl, hc⟩ hn
      · simp only [deleteContentsIn, if_neg hij]; exact top _ _

/-- C2 as amended: for every document `d` reachable from plain text through
`applyFormatting` and every further call `applyFormatting(type, code)` that
takes effect on it (non-empty selected text, an entry found on line 53), each
span child of the resulting document contributes to `generateANSIText` exactly
its stored `data-ansi`, and it is either the span of this call, whose
`data-ansi` is ESC `[` the call's code `m`, the selected text and one reset
suffix, or a span child of `d` with its `data-ansi` and style map unchanged.
When both ends of the range lie inside one span child of `d` the new span is
nested there and the output is the output before the call; otherwise the new
span is a child of the element and the output is the output of the children
before it, its `data-ansi`, and the output of the children after it.  After
foreground 31 on `[0,5)` and background 41 on `[2,4)` of "hello world" the
output is ESC`[31mhello`ESC`[0m world`. -/
theorem C2_generateANSIText_reachable (t : List Char) (d : List Node) (h : Reachable t d)
    (r : Range) (type : String) (code : Nat) (hk : type ∉ objectPrototypeKeys)
    (ha : (ansiData type code).isSome = true) (hsel : r.toString d ≠ []) :
    (∀ a st css cs, Node.span a st css cs ∈ applyFormatting type code (some r) d →
        a = some (ansiOfNode (Node.span a st css cs)) ∧
        ((a = some (ansiPrefixOf code ++ r.toString d ++ suffix) ∧
            cs = [Node.text (r.toString d)]) ∨
          ∃ cs0, Node.span a st css cs0 ∈ d)) ∧
      (∀ i p q a st css cs, r.startContainer = i :: p → r.endContainer = i :: q →
        d[i]? = some (Node.span a st css cs) →
        generateANSIText (applyFormatting type code (some r) d) = generateANSIText d) ∧
      ((¬ ∃ i p q a st css cs, r.startContainer = i :: p ∧ r.endContainer = i :: q ∧
          d[i]? = some (Node.span a st css cs)) →
        ∃ before st css after,
          applyFormatting type code (some r) d =
            before ++ Node.span (some (ansiPrefixOf code ++ r.toString d ++ suffix)) st css
              [Node.text (r.toString d)] :: after ∧
          generateANSIText (applyFormatting type code (some r) d) =
            generateANSIText before ++ (ansiPrefixOf code ++ r.toString d ++ suffix) ++
              generateANSIText after) ∧
      generateANSIText (applyFormatting "background" 41 (some ⟨[1, 0], 2, [1, 0], 4⟩)
        (applyFormatting "foreground" 31 (some ⟨[0], 0, [0], 5⟩)
          (plainDocument "hello world".toList))) = "\u001b[31mhello\u001b[0m world".toList := by
  obtain ⟨item, hitem⟩ := Option.isSome_iff_exists.1 ha
  have hcode := ansiData_code type code item hitem
  have hd := singleCode_of_reachable t d h
  have hd' := singleCode_applyFormatting type code (some r) d hd
  have hspan := ansi_buildSpan type code item (r.toString d)
  rw [hcode] at hspan
  have happ : applyFormatting type code (some r) d =
      insertNodeAt (buildSpan type code item (r.toString d))
        (deleteContentsIn r.startContainer r.startOffset r.endContainer r.endOffset d).2.container
        (deleteContentsIn r.startContainer r.startOffset r.endContainer r.endOffset d).2.offset
        (deleteContentsIn r.startContainer r.startOffset r.endContainer r.endOffset d).1 := by
    simp only [applyFormatting, hsel, if_false, hk, hitem, BoundaryPoint.insertNode,
      Range.deleteContents]
  refine ⟨?_, ?_, ?_, by decide⟩
  · intro a st css cs hmem
    refine ⟨?_, ?_⟩
    · obtain ⟨it, w, _, _, haw⟩ := hd' _ hmem
      subst haw
      simp [ansiOfNode, ansiPrefixOf]
    · rw [happ] at hmem
      have hkept := kept_insertNodeAt
        (fun n => ∀ a st css cs, n = Node.span a st css cs → ∃ cs0, Node.span a st css cs0 ∈ d)
        (fun data a st css cs hh => by cases hh)
        (fun a st css cs cs' hP a' st' css' cs'' hh => by
          cases hh
          exact hP a st css cs rfl)
        (buildSpan type code item (r.toString d)) _ _ _
        (kept_deleteContentsIn
          (fun n => ∀ a st css cs, n = Node.span a st css cs →
            ∃ cs0, Node.span a st css cs0 ∈ d)
          (fun data a st css cs hh => by cases hh)
          (fun a st css cs cs' hP a' st' css' cs'' hh => by
            cases hh
            exact hP a st css cs rfl)
          r.startContainer r.startOffset r.endContainer r.endOffset d
          (fun n hn a st css cs hh => ⟨cs, hh ▸ hn⟩))
        _ hmem
      rcases hkept with hnew | hold
      · left
        rw [hspan] at hnew
        cases hnew
        exact ⟨rfl, rfl⟩
      · right
        exact hold a st css cs rfl
  · intro i p q a st css cs hs he hi
    obtain ⟨sc, so, ec, eo⟩ := r
    simp only at hs he
    subst hs he
    rw [applyFormatting_in_span d i a st css cs p so q eo type code hi]
    obtain ⟨it, w, _, _, haw⟩ := hd _ (mem_of_getElem? d i _ hi)
    subst haw
    obtain ⟨pre, post, rfl, rfl⟩ := split_getElem? d i _ hi
    simp [generateANSIText_append, generateANSIText_cons, generateANSIText_nil, ansiOfNode,
      ansiPrefixOf]
  · intro hnot
    obtain ⟨before, after, hba⟩ := inserted_present (buildSpan type code item (r.toString d))
      r.startContainer r.startOffset r.endContainer r.endOffset d hnot
    obtain ⟨st0, css0, hform⟩ : ∃ st css, buildSpan type code item (r.toString d) =
        Node.span (some (ansiPrefixOf code ++ r.toString d ++ suffix)) st css
          [Node.text (r.toString d)] := ⟨_, _, hspan⟩
    refine ⟨before, st0, css0, after, ?_, ?_⟩
    · rw [happ, hba, hform]
    · rw [happ, hba, generateANSIText_append, generateANSIText_cons, ansiOfNode_buildSpan,
        hcode]
      simp

/-- C2 as amended, at "hello world" with foreground 31 on "hello": Bold
(styles 1) on "world", a range outside the span. -/
theorem C2_witness :
    (Reachable "hello world".toList
        (applyFormatting "foreground" 31 (some ⟨[0], 0, [0], 5⟩)
          (plainDocument "hello world".toList)) ∧
      "styles" ∉ objectPrototypeKeys ∧ (ansiData "styles" 1).isSome = true ∧
      Range.toString ⟨[2], 1, [2], 6⟩
        (applyFormatting "foreground" 31 (some ⟨[0], 0, [0], 5⟩)
          (plainDocument "hello world".toList)) ≠ []) ∧
    ((∀ a st css cs,
        Node.span a st css cs ∈ applyFormatting "styles" 1 (some ⟨[2], 1, [2], 6⟩)
          (applyFormatting "foreground" 31 (some ⟨[0], 0, [0], 5⟩)
            (plainDocument "hello world".toList)) →
        a = some (ansiOfNode (Node.span a st css cs)) ∧
        ((a = some (ansiPrefixOf 1 ++ Range.toString ⟨[2], 1, [2], 6⟩
              (applyFormatting "foreground" 31 (some ⟨[0], 0, [0], 5⟩)
                (plainDocument "hello world".toList)) ++ suffix) ∧
            cs = [Node.text (Range.toString ⟨[2], 1, [2], 6⟩
              (applyFormatting "foreground" 31 (some ⟨[0], 0, [0], 5⟩)
                (plainDocument "hello world".toList)))]) ∨
          ∃ cs0, Node.span a st css cs0 ∈ applyFormatting "foreground" 31
            (some ⟨[0], 0, [0], 5⟩) (plainDocument "hello world".toList))) ∧
      (∀ i p q a st css cs,
        (⟨[2], 1, [2], 6⟩ : Range).startContainer = i :: p →
        (⟨[2], 1, [2], 6⟩ : Range).endContainer = i :: q →
        (applyFormatting "foreground" 31 (some ⟨[0], 0, [0], 5⟩)
          (plainDocument "hello world".toList))[i]? = some (Node.span a st css cs) →
        generateANSIText (applyFormatting "styles" 1 (some ⟨[2], 1, [2], 6⟩)
          (applyFormatting "foreground" 31 (some ⟨[0], 0, [0], 5⟩)
            (plainDocument "hello world".toList))) =
          generateANSIText (applyFormatting "foreground" 31 (some ⟨[0], 0, [0], 5⟩)
            (plainDocument "hello world".toList))) ∧
      ((¬ ∃ i p q a st css cs,
          (⟨[2], 1, [2], 6⟩ : Range).startContainer = i :: p ∧
          (⟨[2], 1, [2], 6⟩ : Range).endContainer = i :: q ∧
          (applyFormatting "foreground" 31 (some ⟨[0], 0, [0], 5⟩)
            (plainDocument "hello world".toList))[i]? = some (Node.span a st css cs)) →
        ∃ before st css after,
          applyFormatting "styles" 1 (some ⟨[2], 1, [2], 6⟩)
              (applyFormatting "foreground" 31 (some ⟨[0], 0, [0], 5⟩)
                (plainDocument "hello world".toList)) =
            before ++ Node.span (some (ansiPrefixOf 1 ++ Range.toString ⟨[2], 1, [2], 6⟩
                (applyFormatting "foreground" 31 (some ⟨[0], 0, [0], 5⟩)
                  (plainDocument "hello world".toList)) ++ suffix)) st css
              [Node.text (Range.toString ⟨[2], 1, [2], 6⟩
                (applyFormatting "foreground" 31 (some ⟨[0], 0, [0], 5⟩)
                  (plainDocument "hello world".toList)))] :: after ∧
          generateANSIText (applyFormatting "styles" 1 (some ⟨[2], 1, [2], 6⟩)
              (applyFormatting "foreground" 31 (some ⟨[0], 0, [0], 5⟩)
                (plainDocument "hello world".toList))) =
            generateANSIText before ++ (ansiPrefixOf 1 ++ Range.toString ⟨[2], 1, [2], 6⟩
              (applyFormatting "foreground" 31 (some ⟨[0], 0, [0], 5⟩)
                (plainDocument "hello world".toList)) ++ suffix) ++
              generateANSIText after) ∧
      generateANSIText (applyFormatting "background" 41 (some ⟨[1, 0], 2, [1, 0], 4⟩)
        (applyFormatting "foreground" 31 (some ⟨[0], 0, [0], 5⟩)
          (plainDocument "hello world".toList))) =
        "\u001b[31mhello\u001b[0m world".toList) :=
  ⟨⟨Reachable.apply _ _ _ _ Reachable.plain (by decide), by decide, by decide, by decide⟩,
    C2_generateANSIText_reachable "hello world".toList _
      (Reachable.apply _ _ _ _ Reachable.plain (by decide))
      ⟨[2], 1, [2], 6⟩ "styles" 1 (by decide) (by decide) (by decide)⟩

end DiscordTextGenerator
